import Mathlib

/-!
Verification development for the cradle container-run subsystem.

This file gives a shallow embedding, in Lean 4, of the run-specification
compiler of the `rhajizada/cradle` repository: the primitive parsers
(ports, devices, DNS, tmpfs, durations, memory sizes), the resource and
host-config assemblers, the container-create-options builder, the
run-fingerprint projection, and the container lifecycle (reuse) resolver,
together with theorems settling the specification claims about them.

Go values are modelled as follows: Go `string` is Lean `String`;
Go `int`/`int64` are Lean `Int` (no overflow is exercised by any claim);
Go `map[string]T` is an association list `List (String × T)` whose list
order stands for the map's (arbitrary) iteration order, with key
uniqueness stated as a hypothesis where a claim needs it; Go slices are
Lean lists (where the `nil` slice versus empty slice distinction matters
for JSON serialization, an `Option` is used, `none` standing for `nil`);
Go `(value, error)` multiple returns are `Except String value`, except
where a claim is about the value returned alongside an error, in which
case the product is kept.
-/

/-- Byte-level character class used by `strings.TrimSpace`; the embedding
covers the ASCII whitespace characters (all inputs in this repository are
ASCII). -/
def goIsSpace (c : Char) : Bool :=
  c = ' ' || c = '\t' || c = '\n' || c = '\r' || c = '\x0b' || c = '\x0c'

/-- Embedding of Go `strings.TrimSpace`. -/
def goTrimSpace (s : String) : String :=
  ⟨((s.data.dropWhile goIsSpace).reverse.dropWhile goIsSpace).reverse⟩

/-- Split a character list at every occurrence of `sep` (auxiliary for
`goSplit`); the accumulator holds the current field reversed. -/
def goSplitAux (sep : Char) : List Char → List Char → List (List Char)
  | [], acc => [acc.reverse]
  | c :: cs, acc =>
    if c = sep then acc.reverse :: goSplitAux sep cs []
    else goSplitAux sep cs (c :: acc)

/-- Embedding of Go `strings.Split` for a single-character separator. -/
def goSplit (s : String) (sep : Char) : List String :=
  (goSplitAux sep s.data []).map List.asString

/-- Embedding of Go `strings.SplitN(s, sep, 2)` for a single-character
separator: at most two fields, the second keeping any further separators. -/
def goSplitN2 (s : String) (sep : Char) : List String :=
  match goSplit s sep with
  | a :: b :: rest => [a, String.intercalate (String.singleton sep) (b :: rest)]
  | l => l

/-- Embedding of Go `strings.SplitN(s, sep, 3)` for a single-character
separator: at most three fields, the third keeping any further separators. -/
def goSplitN3 (s : String) (sep : Char) : List String :=
  match goSplit s sep with
  | a :: b :: c :: rest => [a, b, String.intercalate (String.singleton sep) (c :: rest)]
  | l => l

/-- Go `%q` formatting of a string, as used in the parser error messages
(none of the strings exercised here contain characters that `%q` would
escape). -/
def goQuote (s : String) : String := "\"" ++ s ++ "\""

/-- Decimal value of a digit string (helper for the numeric parsers). -/
def digitsToNat (cs : List Char) : Nat :=
  cs.foldl (fun n c => n * 10 + (c.toNat - 48)) 0

/-- Go map lookup `m[k]` on the association-list model: the value of the
first entry with key `k`, or the zero value `""` when absent. -/
def mapGet (m : List (String × String)) (k : String) : String :=
  match m.find? (fun p => p.1 == k) with
  | some p => p.2
  | none => ""

/-- Go map membership test on the association-list model. -/
def mapHasKey (m : List (String × String)) (k : String) : Bool :=
  m.any (fun p => p.1 == k)

/-- Go map assignment `m[k] = v` on the association-list model: replaces
the value of an existing key in place, otherwise appends the new entry. -/
def mapSet (m : List (String × String)) (k v : String) : List (String × String) :=
  if mapHasKey m k then m.map (fun p => if p.1 == k then (k, v) else p)
  else m ++ [(k, v)]

/-! ## The configuration data model (`internal/config/config.go`) -/

/-- `config.NetworkSpec`. -/
structure NetworkSpec where
  aliases : List String := []
deriving DecidableEq, Repr

/-- `config.MountSpec`. -/
structure MountSpec where
  type : String := ""
  source : String := ""
  target : String := ""
  readOnly : Bool := false
deriving DecidableEq, Repr

/-- `config.UlimitSpec`. -/
structure UlimitSpec where
  name : String := ""
  soft : Int := 0
  hard : Int := 0
deriving DecidableEq, Repr

/-- `config.ResourcesSpec`.  The Go `cpus` field is a `float64`; no claim
exercises fractional CPU counts, so it is modelled as a natural number. -/
structure ResourcesSpec where
  cpus : Nat := 0
  cpuShares : Int := 0
  cpuQuota : Int := 0
  cpuPeriod : Int := 0
  cpusetCpus : String := ""
  cpusetMems : String := ""
  memory : String := ""
  memoryReservation : String := ""
  memorySwap : String := ""
  pidsLimit : Option Int := none
  oomKillDisable : Option Bool := none
  cgroupParent : String := ""
  shmSize : String := ""
deriving DecidableEq, Repr

/-- `config.HealthCheckSpec`. -/
structure HealthCheckSpec where
  test : List String := []
  interval : String := ""
  timeout : String := ""
  retries : Option Int := none
  startPeriod : String := ""
  startInterval : String := ""
  disable : Bool := false
deriving DecidableEq, Repr

/-- `config.LogConfigSpec`. -/
structure LogConfigSpec where
  driver : String := ""
  options : List (String × String) := []
deriving DecidableEq, Repr

/-- `config.RunSpec`: the declarative per-alias run configuration.  The
tri-state `*bool` fields are `Option Bool`; maps are association lists. -/
structure RunSpec where
  uid : Int := 0
  gid : Int := 0
  user : String := ""
  tty : Option Bool := none
  stdinOpen : Option Bool := none
  autoRemove : Option Bool := none
  attach : Option Bool := none
  name : String := ""
  hostname : String := ""
  domainName : String := ""
  workDir : String := ""
  env : List (String × String) := []
  entrypoint : List String := []
  cmd : List String := []
  networkMode : String := ""
  networks : List (String × NetworkSpec) := []
  ports : List String := []
  expose : List String := []
  extraHosts : List String := []
  dns : List String := []
  dnsSearch : List String := []
  dnsOptions : List String := []
  ipc : String := ""
  pid : String := ""
  uts : String := ""
  runtime : String := ""
  volumes : List MountSpec := []
  resources : Option ResourcesSpec := none
  privileged : Bool := false
  readOnly : Bool := false
  capAdd : List String := []
  capDrop : List String := []
  securityOpt : List String := []
  sysctls : List (String × String) := []
  ulimits : List UlimitSpec := []
  tmpfs : List String := []
  devices : List String := []
  groupAdd : List String := []
  labels : List (String × String) := []
  stopSignal : String := ""
  stopGracePeriod : String := ""
  healthCheck : Option HealthCheckSpec := none
  logging : Option LogConfigSpec := none
  restart : String := ""
  platform : String := ""
deriving DecidableEq, Repr

/-! ## Mount validation (`internal/config/config.go`) -/

/-- Embedding of Go `filepath.IsAbs` (unix). -/
def filepathIsAbs (p : String) : Bool :=
  match p.data with
  | '/' :: _ => true
  | _ => false

/-- Embedding of `config.resolvePath`.  `filepath.Join` is modelled as
separator concatenation; no claim depends on path cleaning. -/
def resolvePath (baseDir p : String) : String :=
  if p = "" then p
  else if filepathIsAbs p then p
  else baseDir ++ "/" ++ p

/-- Embedding of `config.validateMount`: validates one mount entry of an
alias, resolving relative bind-mount sources against the config dir. -/
def validateMount (name : String) (idx : Nat) (volume : MountSpec) (baseDir : String) :
    Except String MountSpec :=
  if volume.type = "" ∨ volume.target = "" then
    .error ("aliases." ++ name ++ ".run.volumes[" ++ toString idx ++ "]: type and target are required")
  else if volume.type ≠ "bind" ∧ volume.type ≠ "volume" ∧ volume.type ≠ "tmpfs" then
    .error ("aliases." ++ name ++ ".run.volumes[" ++ toString idx ++ "].type: must be bind|volume|tmpfs")
  else if volume.type ≠ "tmpfs" ∧ volume.source = "" then
    .error ("aliases." ++ name ++ ".run.volumes[" ++ toString idx ++ "].source: required for " ++ volume.type)
  else if volume.type = "bind" ∧ volume.source ≠ "" ∧ ¬ filepathIsAbs volume.source then
    .ok { volume with source := resolvePath baseDir volume.source }
  else
    .ok volume

/-- Loop of `config.validateMounts` over the indexed mount entries. -/
def validateMountsLoop (name : String) (baseDir : String) :
    Nat → List MountSpec → Except String (List MountSpec)
  | _, [] => .ok []
  | i, v :: rest => do
    let vm ← validateMount name i v baseDir
    let tail ← validateMountsLoop name baseDir (i + 1) rest
    .ok (vm :: tail)

/-- Embedding of `config.validateMounts`. -/
def validateMounts (name : String) (volumes : List MountSpec) (baseDir : String) :
    Except String (List MountSpec) :=
  validateMountsLoop name baseDir 0 volumes

/-! ## Engine (moby) value types used by the assembler -/

/-- `mobynet.Port`: a container-side port (number plus protocol). -/
structure Port where
  num : Nat
  proto : String
deriving DecidableEq, Repr

/-- `mobynet.PortBinding`: a host-side binding.  The zero `netip.Addr`
(no host IP) is `none`. -/
structure PortBinding where
  hostIP : Option String := none
  hostPort : String := ""
deriving DecidableEq, Repr

/-- `mobynet.PortSet`, a `map[Port]struct{}`, modelled as the list of its
keys in insertion order. -/
abbrev PortSet := List Port

/-- `mobynet.PortMap`, a `map[Port][]PortBinding`, modelled as an
association list in insertion order. -/
abbrev PortMap := List (Port × List PortBinding)

/-- `container.DeviceMapping`. -/
structure DeviceMapping where
  pathOnHost : String := ""
  pathInContainer : String := ""
  cgroupPermissions : String := ""
deriving DecidableEq, Repr

/-- `container.Ulimit`. -/
structure Ulimit where
  name : String := ""
  soft : Int := 0
  hard : Int := 0
deriving DecidableEq, Repr

/-- `container.Resources` (the fields this repository populates). -/
structure Resources where
  nanoCPUs : Int := 0
  cpuShares : Int := 0
  cpuQuota : Int := 0
  cpuPeriod : Int := 0
  cpusetCpus : String := ""
  cpusetMems : String := ""
  cgroupParent : String := ""
  oomKillDisable : Option Bool := none
  pidsLimit : Option Int := none
  memory : Int := 0
  memoryReservation : Int := 0
  memorySwap : Int := 0
  ulimits : List Ulimit := []
  devices : List DeviceMapping := []
deriving DecidableEq, Repr

/-- `container.HealthConfig`; durations are nanosecond counts. -/
structure HealthConfig where
  test : List String := []
  interval : Int := 0
  timeout : Int := 0
  startPeriod : Int := 0
  startInterval : Int := 0
  retries : Int := 0
deriving DecidableEq, Repr

/-- `container.LogConfig`. -/
structure LogConfig where
  type : String := ""
  config : List (String × String) := []
deriving DecidableEq, Repr

/-- `mount.Mount` (the fields this repository populates). -/
structure DockerMount where
  type : String := ""
  source : String := ""
  target : String := ""
  readOnly : Bool := false
deriving DecidableEq, Repr

/-- `container.HostConfig` (the fields this repository populates). -/
structure HostConfig where
  autoRemove : Bool := false
  privileged : Bool := false
  networkMode : String := ""
  extraHosts : List String := []
  mounts : List DockerMount := []
  resources : Resources := {}
  readonlyRootfs : Bool := false
  capAdd : List String := []
  capDrop : List String := []
  securityOpt : List String := []
  sysctls : List (String × String) := []
  groupAdd : List String := []
  runtime : String := ""
  dns : List String := []
  dnsOptions : List String := []
  dnsSearch : List String := []
  ipcMode : String := ""
  pidMode : String := ""
  utsMode : String := ""
  tmpfs : List (String × String) := []
  logConfig : Option LogConfig := none
  restartPolicy : String := ""
  shmSize : Int := 0
  portBindings : PortMap := []
deriving DecidableEq, Repr

/-- `container.Config` (the fields this repository populates). -/
structure ContainerConfig where
  image : String := ""
  user : String := ""
  env : List String := []
  workingDir : String := ""
  entrypoint : List String := []
  cmd : List String := []
  hostname : String := ""
  domainname : String := ""
  tty : Bool := false
  openStdin : Bool := false
  attachStdin : Bool := false
  attachStdout : Bool := false
  attachStderr : Bool := false
  exposedPorts : PortSet := []
  labels : List (String × String) := []
  stopSignal : String := ""
  stopTimeout : Option Int := none
  healthcheck : Option HealthConfig := none
deriving DecidableEq, Repr

/-- `mobynet.EndpointSettings` (the aliases field). -/
structure EndpointSettings where
  aliases : Option (List String) := none
deriving DecidableEq, Repr

/-- `mobynet.NetworkingConfig`. -/
structure NetworkingConfig where
  endpointsConfig : List (String × EndpointSettings) := []
deriving DecidableEq, Repr

/-- `ocispec.Platform` (the fields `ParsePlatform` populates). -/
structure PlatformSpec where
  os : String := ""
  architecture : String := ""
  variant : String := ""
deriving DecidableEq, Repr

/-- `client.ContainerCreateOptions`.  The Go `Config`, `HostConfig`,
`NetworkingConfig` and `Platform` fields are pointers whose zero value is
`nil`, hence `Option`s here. -/
structure ContainerCreateOptions where
  name : String := ""
  config : Option ContainerConfig := none
  hostConfig : Option HostConfig := none
  networkingConfig : Option NetworkingConfig := none
  platform : Option PlatformSpec := none
deriving DecidableEq, Repr

instance : Inhabited ContainerCreateOptions := ⟨{}⟩

/-! ## External-library parsers

The repository calls a few functions of its dependencies (`moby`'s
`ParsePort`, Go's `netip.ParseAddr` and `time.ParseDuration`, and
`docker/go-units`' `RAMInBytes`) whose sources are not part of this
repository; they are modelled from the specification's description of
them. -/

/-- Modelled from the spec: `mobynet.ParsePort` parses a container-side
port as a "number + protocol" pair, "protocol defaults when unspecified"
(to `tcp`); an unparsable port number is an error. -/
def mobyParsePort (s : String) : Except String Port :=
  match goSplit s '/' with
  | [n] =>
    if n ≠ "" ∧ n.data.all Char.isDigit ∧ 1 ≤ digitsToNat n.data ∧ digitsToNat n.data ≤ 65535 then
      .ok ⟨digitsToNat n.data, "tcp"⟩
    else .error ("invalid port " ++ goQuote s)
  | [n, proto] =>
    if n ≠ "" ∧ n.data.all Char.isDigit ∧ 1 ≤ digitsToNat n.data ∧ digitsToNat n.data ≤ 65535 ∧ proto ≠ "" then
      .ok ⟨digitsToNat n.data, proto⟩
    else .error ("invalid port " ++ goQuote s)
  | _ => .error ("invalid port " ++ goQuote s)

/-- Dotted-quad component check for the `netip.ParseAddr` model. -/
def isIPv4Part (s : String) : Bool :=
  s ≠ "" && s.data.all Char.isDigit && s.length ≤ 3 && digitsToNat s.data ≤ 255 &&
    (s = "0" || s.data.head? ≠ some '0')

/-- Modelled from the spec: `netip.ParseAddr` parses an IP address
(IPv4 dotted quad or IPv6), erroring on anything else ("unparsable host
IP" / "unparsable entry").  The parsed address is represented by its
string form; the inputs exercised here are already canonical. -/
def netipParseAddr (s : String) : Option String :=
  let parts := goSplit s '.'
  if parts.length = 4 ∧ parts.all isIPv4Part then some s
  else if s ≠ "" ∧ s.data.contains ':' ∧
      s.data.all (fun c => c.isDigit || ('a' ≤ c && c ≤ 'f') || ('A' ≤ c && c ≤ 'F') || c = ':') then
    some s
  else none

/-- Nanosecond multiplier of a Go duration unit. -/
def durUnitNanos : String → Option Int
  | "ns" => some 1
  | "us" => some 1000
  | "ms" => some 1000000
  | "s" => some 1000000000
  | "m" => some 60000000000
  | "h" => some 3600000000000
  | _ => none

/-- One "number unit" group of a Go duration literal: returns the group's
nanosecond value and the remaining characters. -/
def parseDurGroup (cs : List Char) : Option (Int × List Char) :=
  let digits := cs.takeWhile Char.isDigit
  let rest := cs.dropWhile Char.isDigit
  if digits = [] then none
  else
    let unit2 := rest.take 2
    let unit1 := rest.take 1
    if (durUnitNanos unit2.asString).isSome ∧ unit2.length = 2 then
      (durUnitNanos unit2.asString).map (fun m => (m * Int.ofNat (digitsToNat digits), rest.drop 2))
    else if (durUnitNanos unit1.asString).isSome then
      (durUnitNanos unit1.asString).map (fun m => (m * Int.ofNat (digitsToNat digits), rest.drop 1))
    else none

/-- All "number unit" groups of a Go duration literal (fuel recursion on
the remaining length). -/
def parseDurGroups : Nat → List Char → Option Int
  | _, [] => some 0
  | 0, _ => none
  | fuel + 1, cs =>
    match parseDurGroup cs with
    | none => none
    | some (v, rest) =>
      if rest.length < cs.length then
        (parseDurGroups fuel rest).map (v + ·)
      else none

/-- Modelled from the spec: Go `time.ParseDuration` — "duration strings
must parse to a non-negative duration", i.e. the parse itself yields a
signed nanosecond count (an optional sign followed by number-unit
groups; a bare `0` needs no unit); fractional components are not
exercised by any claim and are not modelled. -/
def goParseDuration (s : String) : Option Int :=
  match s.data with
  | [] => none
  | '-' :: rest =>
    if rest = ['0'] then some 0
    else (parseDurGroups rest.length rest).map (fun v => -v)
  | '+' :: rest =>
    if rest = ['0'] then some 0
    else parseDurGroups rest.length rest
  | cs =>
    if cs = ['0'] then some 0
    else parseDurGroups cs.length cs

/-- Modelled from the spec: `units.RAMInBytes` — "memory strings use
standard human-readable byte suffixes" (binary multiples); an unparsable
string is an error (`none`). -/
def goRAMInBytes (s : String) : Option Int :=
  let t := goTrimSpace s
  let digits := t.data.takeWhile Char.isDigit
  let suffix := (List.asString (t.data.dropWhile Char.isDigit)).toLower
  if digits = [] then none
  else
    let n : Int := Int.ofNat (digitsToNat digits)
    match suffix with
    | "" => some n
    | "b" => some n
    | "k" => some (n * 1024)
    | "kb" => some (n * 1024)
    | "kib" => some (n * 1024)
    | "m" => some (n * 1048576)
    | "mb" => some (n * 1048576)
    | "mib" => some (n * 1048576)
    | "g" => some (n * 1073741824)
    | "gb" => some (n * 1073741824)
    | "gib" => some (n * 1073741824)
    | "t" => some (n * 1099511627776)
    | "tb" => some (n * 1099511627776)
    | "tib" => some (n * 1099511627776)
    | "p" => some (n * 1125899906842624)
    | "pb" => some (n * 1125899906842624)
    | "pib" => some (n * 1125899906842624)
    | _ => none

/-! ## Service helpers (`internal/service`, run.go) -/

/-- The reserved label key `io.cradle.fingerprint`. -/
def containerFingerprintLabel : String := "io.cradle.fingerprint"

/-- Embedding of `service.NormalizeTrimmedSlice`: trims every element and
drops the ones that become empty.  The Go function returns the `nil`
slice for empty input and a (possibly empty) non-`nil` slice otherwise;
`none` models `nil`. -/
def NormalizeTrimmedSlice (l : List String) : Option (List String) :=
  if l = [] then none
  else some (l.filterMap (fun v =>
    let t := goTrimSpace v
    if t = "" then none else some t))

/-- Embedding of `service.MapToEnv`: renders the env map as `KEY=VAL`
entries (in map iteration order, modelled by the association-list
order). -/
def MapToEnv (env : List (String × String)) : List String :=
  env.map (fun p => p.1 ++ "=" ++ p.2)

/-- The fingerprint key/value entry type (`service.envKV`). -/
structure EnvKV where
  key : String
  value : String
deriving DecidableEq, Repr

/-- Embedding of `service.mapToSortedKVs`: the map's keys sorted, each
paired with its value.  Go returns `nil` for an empty map (`none` here). -/
def mapToSortedKVs (values : List (String × String)) : Option (List EnvKV) :=
  if values = [] then none
  else
    let keys := (values.map Prod.fst).insertionSort (· ≤ ·)
    some (keys.map (fun k => ⟨k, mapGet values k⟩))

/-- The per-network fingerprint entry (`service.networkFingerprint`). -/
structure NetworkFingerprint where
  name : String
  aliases : Option (List String)
deriving DecidableEq, Repr

/-- Network lookup on the association-list model of the networks map. -/
def networksGet (networks : List (String × NetworkSpec)) (k : String) : NetworkSpec :=
  match networks.find? (fun p => p.1 == k) with
  | some p => p.2
  | none => {}

/-- Embedding of `service.normalizeNetworks`: network names sorted, each
carrying its normalized alias list. -/
def normalizeNetworks (networks : List (String × NetworkSpec)) : Option (List NetworkFingerprint) :=
  if networks = [] then none
  else
    let keys := (networks.map Prod.fst).insertionSort (· ≤ ·)
    some (keys.map (fun k => ⟨k, NormalizeTrimmedSlice (networksGet networks k).aliases⟩))

/-- Embedding of `service.mergeLabels`: seeds a fresh map with the
fingerprint under the reserved key and then `maps.Copy`s the caller's
labels over it. -/
def mergeLabels (labels : List (String × String)) (fingerprint : String) :
    List (String × String) :=
  labels.foldl (fun m p => mapSet m p.1 p.2) [(containerFingerprintLabel, fingerprint)]

/-- Embedding of `service.userSpec`: the explicit `user` string wins,
otherwise `uid:gid` when both are positive, otherwise empty. -/
def userSpec (run : RunSpec) : String :=
  if run.user ≠ "" then run.user
  else if run.uid > 0 ∧ run.gid > 0 then toString run.uid ++ ":" ++ toString run.gid
  else ""

/-- Embedding of `service.BoolDefault`. -/
def BoolDefault (p : Option Bool) (defVal : Bool) : Bool :=
  match p with
  | none => defVal
  | some b => b

/-- Embedding of `service.defaultContainerName`. -/
def defaultContainerName (aliasName configured : String) : String :=
  if configured ≠ "" then configured else "cradle-" ++ aliasName

/-- Embedding of `service.parseStopTimeout`: `(seconds, present)` of the
stop grace period, or a field-qualified error. -/
def parseStopTimeout (value : String) : Except String (Int × Bool) :=
  if goTrimSpace value = "" then .ok (0, false)
  else
    match goParseDuration value with
    | none => .error "invalid run.stop_grace_period: unparsable duration"
    | some duration =>
      if duration < 0 then .error "invalid run.stop_grace_period: must be >= 0"
      else .ok (duration / 1000000000, true)

/-- Embedding of `service.parseDuration`: empty means zero; otherwise the
duration must parse and be non-negative, every failure naming `field`. -/
def parseDuration (value field : String) : Except String Int :=
  if goTrimSpace value = "" then .ok 0
  else
    match goParseDuration value with
    | none => .error ("invalid " ++ field ++ ": unparsable duration")
    | some duration =>
      if duration < 0 then .error ("invalid " ++ field ++ ": must be >= 0")
      else .ok duration

/-- Embedding of `service.buildHealthcheck`: `none` when no spec is
present; the `NONE` sentinel when disabled; otherwise the four durations
parsed with their field paths and test/retries carried over. -/
def buildHealthcheck (spec : Option HealthCheckSpec) : Except String (Option HealthConfig) :=
  match spec with
  | none => .ok none
  | some spec =>
    if spec.disable then .ok (some { test := ["NONE"] })
    else do
      let interval ← parseDuration spec.interval "run.healthcheck.interval"
      let timeout ← parseDuration spec.timeout "run.healthcheck.timeout"
      let startPeriod ← parseDuration spec.startPeriod "run.healthcheck.start_period"
      let startInterval ← parseDuration spec.startInterval "run.healthcheck.start_interval"
      let retries := match spec.retries with
        | some r => r
        | none => 0
      .ok (some { test := spec.test, interval := interval, timeout := timeout,
                  startPeriod := startPeriod, startInterval := startInterval, retries := retries })

/-- Insertion into the exposed-port set (`exposed[port] = struct{}{}`). -/
def portSetInsert (exposed : PortSet) (port : Port) : PortSet :=
  if exposed.contains port then exposed else exposed ++ [port]

/-- `bindings[port] = append(bindings[port], b)` on the port-map model. -/
def portMapAppend (bindings : PortMap) (port : Port) (b : PortBinding) : PortMap :=
  if bindings.any (fun p => p.1 == port) then
    bindings.map (fun p => if p.1 == port then (p.1, p.2 ++ [b]) else p)
  else bindings ++ [(port, [b])]

/-- Loop of `service.addExposedPorts` over the extra port strings. -/
def addExposedPortsLoop (exposed : PortSet) : List String → Except String PortSet
  | [] => .ok exposed
  | raw :: rest =>
    let spec := goTrimSpace raw
    if spec = "" then addExposedPortsLoop exposed rest
    else
      match mobyParsePort spec with
      | .error e => .error ("invalid expose port " ++ goQuote raw ++ ": " ++ e)
      | .ok port => addExposedPortsLoop (portSetInsert exposed port) rest

/-- Embedding of `service.addExposedPorts`: merges extra bare port
strings into the exposed set, skipping blanks. -/
def addExposedPorts (exposed : PortSet) (extra : List String) : Except String PortSet :=
  if extra = [] then .ok exposed
  else addExposedPortsLoop exposed extra

/-- Loop of `service.parseDNS` over the address strings. -/
def parseDNSLoop : List String → Except String (List String)
  | [] => .ok []
  | raw :: rest =>
    let spec := goTrimSpace raw
    if spec = "" then parseDNSLoop rest
    else
      match netipParseAddr spec with
      | none => .error ("invalid dns entry " ++ goQuote raw ++ ": unparsable address")
      | some addr => do
        let tail ← parseDNSLoop rest
        .ok (addr :: tail)

/-- Embedding of `service.parseDNS`: the ordered list of parsed DNS
addresses, skipping blank entries, erroring on unparsable ones. -/
def parseDNS (specs : List String) : Except String (List String) :=
  parseDNSLoop specs

/-- Loop of `service.parseTmpfs` over the tmpfs spec strings. -/
def parseTmpfsLoop (entries : List (String × String)) :
    List String → Except String (List (String × String))
  | [] => .ok entries
  | raw :: rest =>
    let spec := goTrimSpace raw
    if spec = "" then parseTmpfsLoop entries rest
    else
      match goSplitN2 spec ':' with
      | [] => .error ("invalid tmpfs entry " ++ goQuote raw)
      | p :: tailParts =>
        let path := goTrimSpace p
        if path = "" then .error ("invalid tmpfs entry " ++ goQuote raw)
        else
          let options := match tailParts with
            | [o] => goTrimSpace o
            | _ => ""
          parseTmpfsLoop (mapSet entries path options) rest

/-- Embedding of `service.parseTmpfs`: the path-to-options map, skipping
blank entries, erroring on an empty path segment. -/
def parseTmpfs (specs : List String) : Except String (List (String × String)) :=
  if specs = [] then .ok []
  else parseTmpfsLoop [] specs

/-- Loop of `service.parseDeviceSpecs` over the device spec strings. -/
def parseDeviceSpecsLoop : List String → Except String (List DeviceMapping)
  | [] => .ok []
  | raw :: rest =>
    let spec := goTrimSpace raw
    if spec = "" then parseDeviceSpecsLoop rest
    else
      let mapping : Except String DeviceMapping :=
        match goSplitN3 spec ':' with
        | [h] => .ok { pathOnHost := h, pathInContainer := h, cgroupPermissions := "rwm" }
        | [h, c] => .ok { pathOnHost := h, pathInContainer := c, cgroupPermissions := "rwm" }
        | [h, c, p] => .ok { pathOnHost := h, pathInContainer := c, cgroupPermissions := p }
        | _ => .error ("invalid device entry " ++ goQuote raw)
      match mapping with
      | .error e => .error e
      | .ok m =>
        if m.pathOnHost = "" ∨ m.pathInContainer = "" then
          .error ("invalid device entry " ++ goQuote raw)
        else do
          let tail ← parseDeviceSpecsLoop rest
          .ok (m :: tail)

/-- Embedding of `service.parseDeviceSpecs`: the ordered device-mapping
list (`host[:container[:permissions]]`, permissions defaulting to
`rwm`). -/
def parseDeviceSpecs (specs : List String) : Except String (List DeviceMapping) :=
  parseDeviceSpecsLoop specs

/-- Embedding of `service.buildNetworkingConfig`: one endpoint per named
network (map order modelled by list order), `none` when no networks are
declared. -/
def buildNetworkingConfig (networks : List (String × NetworkSpec)) : Option NetworkingConfig :=
  if networks = [] then none
  else some ⟨networks.map (fun p => (p.1, ⟨NormalizeTrimmedSlice p.2.aliases⟩))⟩

/-- Embedding of `service.ToDockerMounts`: maps the validated mount list
onto engine mounts, dropping unrecognized types and the source of tmpfs
mounts. -/
def ToDockerMounts (ms : List MountSpec) : List DockerMount :=
  ms.filterMap (fun m =>
    if m.type = "bind" then
      some { type := "bind", source := m.source, target := m.target, readOnly := m.readOnly }
    else if m.type = "volume" then
      some { type := "volume", source := m.source, target := m.target, readOnly := m.readOnly }
    else if m.type = "tmpfs" then
      some { type := "tmpfs", target := m.target }
    else none)

/-- Embedding of `service.buildUlimits` (build.go). -/
def buildUlimits (specs : List UlimitSpec) : List Ulimit :=
  specs.map (fun spec => { name := spec.name, soft := spec.soft, hard := spec.hard })

/-- Embedding of `service.applyMemoryLimit`: parses one human-readable
memory string, naming `field` on failure; `none` keeps the target
untouched. -/
def applyMemoryLimit (value field : String) : Except String (Option Int) :=
  if value = "" then .ok none
  else
    match goRAMInBytes value with
    | none => .error ("invalid " ++ field ++ ": unparsable size")
    | some mem => .ok (some mem)

/-- Embedding of `service.applyResourceSpec`: folds the resource spec
into the engine resource limits. -/
def applyResourceSpec (resources : Resources) (spec : Option ResourcesSpec) :
    Except String Resources :=
  match spec with
  | none => .ok resources
  | some spec => do
    let r0 := if spec.cpus > 0 then
        { resources with nanoCPUs := Int.ofNat (spec.cpus * 1000000000) }
      else resources
    let r1 := { r0 with
      cpuShares := spec.cpuShares, cpuQuota := spec.cpuQuota, cpuPeriod := spec.cpuPeriod,
      cpusetCpus := spec.cpusetCpus, cpusetMems := spec.cpusetMems,
      cgroupParent := spec.cgroupParent, oomKillDisable := spec.oomKillDisable,
      pidsLimit := spec.pidsLimit }
    let mem ← applyMemoryLimit spec.memory "run.resources.memory"
    let r2 := match mem with
      | some m => { r1 with memory := m }
      | none => r1
    let memReservation ← applyMemoryLimit spec.memoryReservation "run.resources.memory_reservation"
    let r3 := match memReservation with
      | some m => { r2 with memoryReservation := m }
      | none => r2
    let memSwap ← applyMemoryLimit spec.memorySwap "run.resources.memory_swap"
    let r4 := match memSwap with
      | some m => { r3 with memorySwap := m }
      | none => r3
    .ok r4

/-- Embedding of `service.buildResources`: resource spec, ulimits and
device mappings combined into one resource-limits value. -/
def buildResources (spec : Option ResourcesSpec) (ulimits : List UlimitSpec)
    (devices : List String) : Except String Resources := do
  let resources ← applyResourceSpec {} spec
  let r1 := if ulimits ≠ [] then { resources with ulimits := buildUlimits ulimits } else resources
  if devices ≠ [] then
    match parseDeviceSpecs devices with
    | .error e => .error e
    | .ok parsed => .ok { r1 with devices := parsed }
  else .ok r1

/-- Embedding of `service.buildHostConfig`. -/
def buildHostConfig (run : RunSpec) (resources : Resources) (autoRemove : Bool) :
    Except String HostConfig := do
  let hostCfg : HostConfig := {
    autoRemove := autoRemove, privileged := run.privileged, networkMode := run.networkMode,
    extraHosts := run.extraHosts, mounts := ToDockerMounts run.volumes, resources := resources,
    readonlyRootfs := run.readOnly, capAdd := run.capAdd, capDrop := run.capDrop,
    securityOpt := run.securityOpt, sysctls := run.sysctls, groupAdd := run.groupAdd,
    runtime := run.runtime }
  let hostCfg ← (if run.dns ≠ [] then do
      let dns ← parseDNS run.dns
      pure { hostCfg with dns := dns }
    else pure hostCfg : Except String HostConfig)
  let hostCfg := if run.dnsOptions ≠ [] then { hostCfg with dnsOptions := run.dnsOptions } else hostCfg
  let hostCfg := if run.dnsSearch ≠ [] then { hostCfg with dnsSearch := run.dnsSearch } else hostCfg
  let hostCfg := if run.ipc ≠ "" then { hostCfg with ipcMode := run.ipc } else hostCfg
  let hostCfg := if run.pid ≠ "" then { hostCfg with pidMode := run.pid } else hostCfg
  let hostCfg := if run.uts ≠ "" then { hostCfg with utsMode := run.uts } else hostCfg
  let hostCfg ← (if run.tmpfs ≠ [] then do
      let tmpfs ← parseTmpfs run.tmpfs
      pure { hostCfg with tmpfs := tmpfs }
    else pure hostCfg : Except String HostConfig)
  let hostCfg := match run.logging with
    | some logging => { hostCfg with logConfig := some ⟨logging.driver, logging.options⟩ }
    | none => hostCfg
  let hostCfg := if run.restart ≠ "" then { hostCfg with restartPolicy := run.restart } else hostCfg
  match run.resources with
  | some res =>
    if res.shmSize ≠ "" then
      match goRAMInBytes res.shmSize with
      | none => .error "invalid run.resources.shm_size: unparsable size"
      | some shm => .ok { hostCfg with shmSize := shm }
    else .ok hostCfg
  | none => .ok hostCfg

/-- Embedding of `service.ParsePlatform` (platform.go): `os/arch` or
`os/arch/variant`. -/
def ParsePlatform (s : String) : Except String PlatformSpec :=
  match goSplit s '/' with
  | [os, arch] => .ok { os := os, architecture := arch }
  | [os, arch, variant] => .ok { os := os, architecture := arch, variant := variant }
  | _ => .error ("invalid platform " ++ goQuote s ++ " (expected os/arch[/variant])")

/-! ## Port mapping parsing (`internal/service`, run.go) -/

/-- Embedding of `service.splitIPv6Port`: `[hostIPv6]:host:container`.
Returns `(hostIP, hostPort, containerPort)`. -/
def splitIPv6Port (spec : String) : Except String (String × String × String) :=
  let pre := spec.data.takeWhile (fun c => c ≠ ']')
  let post := spec.data.dropWhile (fun c => c ≠ ']')
  match post with
  | [] => .error ("invalid port mapping " ++ goQuote spec)
  | _ :: afterBracket =>
    match afterBracket with
    | ':' :: rest =>
      if rest = [] then .error ("invalid port mapping " ++ goQuote spec)
      else
        match goSplit (List.asString rest) ':' with
        | [hostPort, containerPort] =>
          .ok (List.asString (pre.drop 1), hostPort, containerPort)
        | _ => .error ("invalid port mapping " ++ goQuote spec)
    | _ => .error ("invalid port mapping " ++ goQuote spec)

/-- Embedding of `service.splitIPv4Port`: one, two or three
colon-separated fields. -/
def splitIPv4Port (spec : String) : Except String (String × String × String) :=
  match goSplit spec ':' with
  | [containerPort] => .ok ("", "", containerPort)
  | [hostPort, containerPort] => .ok ("", hostPort, containerPort)
  | [hostIP, hostPort, containerPort] => .ok (hostIP, hostPort, containerPort)
  | _ => .error ("invalid port mapping " ++ goQuote spec)

/-- Embedding of `service.splitPortSpec`: bracketed specs take the IPv6
form, everything else the IPv4 form. -/
def splitPortSpec (spec : String) : Except String (String × String × String) :=
  match spec.data with
  | '[' :: _ => splitIPv6Port spec
  | _ => splitIPv4Port spec

/-- Embedding of `service.buildPortBinding`: no host port means no
binding; a host IP, when present, must parse. -/
def buildPortBinding (hostIPStr hostPortStr spec : String) :
    Except String (Option PortBinding) :=
  if hostPortStr = "" then .ok none
  else if hostIPStr = "" then .ok (some { hostPort := hostPortStr })
  else
    match netipParseAddr hostIPStr with
    | none => .error ("invalid host ip " ++ goQuote hostIPStr ++ " in " ++ goQuote spec)
    | some parsedIP => .ok (some { hostIP := some parsedIP, hostPort := hostPortStr })

/-- Embedding of `service.parsePortMapping`: container port plus optional
host binding. -/
def parsePortMapping (spec : String) : Except String (Port × Option PortBinding) := do
  let (hostIPStr, hostPortStr, containerPortStr) ← splitPortSpec spec
  let port ← match mobyParsePort containerPortStr with
    | .error e =>
      Except.error ("invalid container port " ++ goQuote containerPortStr ++ " in " ++
        goQuote spec ++ ": " ++ e)
    | .ok port => pure port
  let binding ← buildPortBinding hostIPStr hostPortStr spec
  .ok (port, binding)

/-- Loop of `service.ParsePorts` over the port spec strings. -/
def parsePortsLoop (exposed : PortSet) (bindings : PortMap) :
    List String → Except String (PortSet × PortMap)
  | [] => .ok (exposed, bindings)
  | raw :: rest =>
    let spec := goTrimSpace raw
    if spec = "" then parsePortsLoop exposed bindings rest
    else
      match parsePortMapping spec with
      | .error e => .error e
      | .ok (port, obinding) =>
        let exposed := portSetInsert exposed port
        let bindings := match obinding with
          | none => bindings
          | some b => portMapAppend bindings port b
        parsePortsLoop exposed bindings rest

/-- Embedding of `service.ParsePorts`: the exposed-port set and the
host-binding map accumulated over all port specs (blank entries
skipped). -/
def ParsePorts (specs : List String) : Except String (PortSet × PortMap) :=
  if specs = [] then .ok ([], [])
  else parsePortsLoop [] [] specs

/-! ## The container-create-options builder (`service.BuildContainerCreateOptions`) -/

/-- Embedding of `service.BuildContainerCreateOptions`.  Mirrors the Go
multiple-return convention: alongside an error the zero
`ContainerCreateOptions` value is returned (every error return in the
source returns the `client.ContainerCreateOptions{}` literal). -/
def BuildContainerCreateOptions (name : String) (run : RunSpec)
    (imageRef fingerprint : String) (tty stdinOpen autoRemove : Bool) :
    ContainerCreateOptions × Option String :=
  let env := MapToEnv run.env
  let user := userSpec run
  match buildResources run.resources run.ulimits run.devices with
  | .error e => ({}, some e)
  | .ok resources =>
  match buildHostConfig run resources autoRemove with
  | .error e => ({}, some e)
  | .ok hostCfg0 =>
  match ParsePorts run.ports with
  | .error e => ({}, some e)
  | .ok (exposed0, bindings) =>
  let hostCfg := { hostCfg0 with portBindings := bindings }
  match addExposedPorts exposed0 run.expose with
  | .error e => ({}, some e)
  | .ok exposed =>
  let cfgCtr0 : ContainerConfig := {
    image := imageRef, user := user, env := env, workingDir := run.workDir,
    entrypoint := run.entrypoint, cmd := run.cmd, hostname := run.hostname,
    domainname := run.domainName, tty := tty, openStdin := stdinOpen,
    attachStdin := true, attachStdout := true, attachStderr := true,
    exposedPorts := exposed, labels := mergeLabels run.labels fingerprint,
    stopSignal := run.stopSignal }
  match parseStopTimeout run.stopGracePeriod with
  | .error e => ({}, some e)
  | .ok (stopTimeout, hasStopTimeout) =>
  let cfgCtr1 := if hasStopTimeout then { cfgCtr0 with stopTimeout := some stopTimeout } else cfgCtr0
  match buildHealthcheck run.healthCheck with
  | .error e => ({}, some e)
  | .ok healthcheck =>
  let cfgCtr := match healthcheck with
    | some hc => { cfgCtr1 with healthcheck := some hc }
    | none => cfgCtr1
  let createOpts : ContainerCreateOptions := {
    name := name, config := some cfgCtr, hostConfig := some hostCfg,
    networkingConfig := buildNetworkingConfig run.networks }
  if run.platform = "" then (createOpts, none)
  else
    match ParsePlatform run.platform with
    | .error e => ({}, some e)
    | .ok platform => ({ createOpts with platform := some platform }, none)

/-! ## The run fingerprint (`service.RunFingerprint`) -/

/-- The fingerprint projection of the run spec (`service.runFingerprintRun`),
field for field in the Go struct's declaration (and JSON) order.  Fields
whose Go value distinguishes `nil` from an empty slice in the JSON
encoding are `Option`s. -/
structure RunFingerprintRun where
  uid : Int
  gid : Int
  user : String
  tty : Bool
  stdinOpen : Bool
  autoRemove : Bool
  hostname : String
  domainName : String
  workDir : String
  env : Option (List EnvKV)
  entrypoint : List String
  cmd : List String
  networkMode : String
  networks : Option (List NetworkFingerprint)
  ports : Option (List String)
  expose : Option (List String)
  extraHosts : Option (List String)
  dns : Option (List String)
  dnsSearch : Option (List String)
  dnsOptions : Option (List String)
  ipc : String
  pid : String
  uts : String
  runtime : String
  volumes : List MountSpec
  resources : Option ResourcesSpec
  privileged : Bool
  readOnly : Bool
  capAdd : Option (List String)
  capDrop : Option (List String)
  securityOpt : Option (List String)
  sysctls : Option (List EnvKV)
  ulimits : List UlimitSpec
  tmpfs : Option (List String)
  devices : Option (List String)
  groupAdd : Option (List String)
  labels : Option (List EnvKV)
  stopSignal : String
  stopGracePeriod : String
  healthcheck : Option HealthCheckSpec
  logging : Option LogConfigSpec
  restart : String
  platform : String
deriving DecidableEq, Repr

/-- The full fingerprint projection (`service.runFingerprintSpec`). -/
structure RunFingerprintSpec where
  aliasName : String
  name : String
  imageRef : String
  imageID : String
  run : RunFingerprintRun
deriving DecidableEq, Repr

/-- Embedding of `service.buildRunFingerprintRun`: the canonical
projection of the run spec — maps become sorted key/value lists, the
listed string slices are trimmed-and-filtered, networks are name-sorted;
everything else is carried verbatim. -/
def buildRunFingerprintRun (run : RunSpec) (tty stdinOpen autoRemove : Bool) :
    RunFingerprintRun where
  uid := run.uid
  gid := run.gid
  user := run.user
  tty := tty
  stdinOpen := stdinOpen
  autoRemove := autoRemove
  hostname := run.hostname
  domainName := run.domainName
  workDir := run.workDir
  env := mapToSortedKVs run.env
  entrypoint := run.entrypoint
  cmd := run.cmd
  networkMode := run.networkMode
  networks := normalizeNetworks run.networks
  ports := NormalizeTrimmedSlice run.ports
  expose := NormalizeTrimmedSlice run.expose
  extraHosts := NormalizeTrimmedSlice run.extraHosts
  dns := NormalizeTrimmedSlice run.dns
  dnsSearch := NormalizeTrimmedSlice run.dnsSearch
  dnsOptions := NormalizeTrimmedSlice run.dnsOptions
  ipc := run.ipc
  pid := run.pid
  uts := run.uts
  runtime := run.runtime
  volumes := run.volumes
  resources := run.resources
  privileged := run.privileged
  readOnly := run.readOnly
  capAdd := NormalizeTrimmedSlice run.capAdd
  capDrop := NormalizeTrimmedSlice run.capDrop
  securityOpt := NormalizeTrimmedSlice run.securityOpt
  sysctls := mapToSortedKVs run.sysctls
  ulimits := run.ulimits
  tmpfs := NormalizeTrimmedSlice run.tmpfs
  devices := NormalizeTrimmedSlice run.devices
  groupAdd := NormalizeTrimmedSlice run.groupAdd
  labels := mapToSortedKVs run.labels
  stopSignal := run.stopSignal
  stopGracePeriod := run.stopGracePeriod
  healthcheck := run.healthCheck
  logging := run.logging
  restart := run.restart
  platform := run.platform

/-! ### Canonical JSON serialization (Go `encoding/json` on the
projection structs).  Struct fields are emitted in declaration order with
their `json` tags; `omitempty` fields are dropped at their zero value;
`nil` slices serialize as `null`; map-valued fields serialize with their
keys sorted. -/

/-- JSON string escaping (the characters `encoding/json` escapes that
occur in this repository's data). -/
def jsonEscapeChar (c : Char) : String :=
  if c = '"' then "\\\""
  else if c = '\\' then "\\\\"
  else if c = '\n' then "\\n"
  else if c = '\t' then "\\t"
  else if c = '\r' then "\\r"
  else String.singleton c

/-- A JSON string literal. -/
def jsonStr (s : String) : String :=
  "\"" ++ String.join (s.data.map jsonEscapeChar) ++ "\""

/-- A JSON number from an integer. -/
def jsonInt (i : Int) : String := toString i

/-- A JSON boolean. -/
def jsonBool (b : Bool) : String := if b then "true" else "false"

/-- A JSON object from already-rendered `"key":value` members. -/
def jsonObj (fields : List String) : String :=
  "\x7b" ++ String.intercalate "," fields ++ "\x7d"

/-- A JSON object from optional members (`omitempty` fields render to
`none`). -/
def jsonObjOpt (fields : List (Option String)) : String :=
  jsonObj (fields.filterMap id)

/-- A JSON array from already-rendered elements. -/
def jsonArr (items : List String) : String :=
  "[" ++ String.intercalate "," items ++ "]"

/-- One `"key":value` member. -/
def jsonKV (k v : String) : String := jsonStr k ++ ":" ++ v

/-- A string-slice member (`nil` serializes as `null`). -/
def jsonOptStrArr (k : String) (v : Option (List String)) : String :=
  match v with
  | none => jsonKV k "null"
  | some l => jsonKV k (jsonArr (l.map jsonStr))

/-- A plain (never-`nil`-distinguished) string-slice member. -/
def jsonStrArr (k : String) (v : List String) : String :=
  jsonKV k (jsonArr (v.map jsonStr))

/-- An `omitempty` string member. -/
def jsonStrOmit (k v : String) : Option String :=
  if v = "" then none else some (jsonKV k (jsonStr v))

/-- An `omitempty` integer member. -/
def jsonIntOmit (k : String) (v : Int) : Option String :=
  if v = 0 then none else some (jsonKV k (jsonInt v))

/-- An `omitempty` natural-number member. -/
def jsonNatOmit (k : String) (v : Nat) : Option String :=
  if v = 0 then none else some (jsonKV k (jsonInt (Int.ofNat v)))

/-- An `omitempty` boolean member. -/
def jsonBoolOmit (k : String) (v : Bool) : Option String :=
  if v then some (jsonKV k "true") else none

/-- An `omitempty` pointer-to-integer member. -/
def jsonOptIntOmit (k : String) (v : Option Int) : Option String :=
  v.map (fun i => jsonKV k (jsonInt i))

/-- An `omitempty` pointer-to-boolean member. -/
def jsonOptBoolOmit (k : String) (v : Option Bool) : Option String :=
  v.map (fun b => jsonKV k (jsonBool b))

/-- An `omitempty` string-slice member (empty slices are omitted). -/
def jsonStrArrOmit (k : String) (v : List String) : Option String :=
  if v = [] then none else some (jsonStrArr k v)

/-- An `omitempty` string-map member: keys sorted, empty maps omitted. -/
def jsonStrMapOmit (k : String) (v : List (String × String)) : Option String :=
  if v = [] then none
  else
    let keys := (v.map Prod.fst).insertionSort (· ≤ ·)
    some (jsonKV k (jsonObj (keys.map (fun key => jsonKV key (jsonStr (mapGet v key))))))

/-- JSON of `service.envKV`. -/
def marshalEnvKV (kv : EnvKV) : String :=
  jsonObj [jsonKV "key" (jsonStr kv.key), jsonKV "value" (jsonStr kv.value)]

/-- JSON of `service.networkFingerprint`. -/
def marshalNetworkFingerprint (nf : NetworkFingerprint) : String :=
  jsonObj [jsonKV "name" (jsonStr nf.name), jsonOptStrArr "aliases" nf.aliases]

/-- JSON of `config.MountSpec`. -/
def marshalMountSpec (m : MountSpec) : String :=
  jsonObjOpt [some (jsonKV "type" (jsonStr m.type)), jsonStrOmit "source" m.source,
    some (jsonKV "target" (jsonStr m.target)), jsonBoolOmit "read_only" m.readOnly]

/-- JSON of `config.UlimitSpec`. -/
def marshalUlimitSpec (u : UlimitSpec) : String :=
  jsonObjOpt [some (jsonKV "name" (jsonStr u.name)), jsonIntOmit "soft" u.soft,
    jsonIntOmit "hard" u.hard]

/-- JSON of `config.ResourcesSpec`. -/
def marshalResourcesSpec (r : ResourcesSpec) : String :=
  jsonObjOpt [jsonNatOmit "cpus" r.cpus, jsonIntOmit "cpu_shares" r.cpuShares,
    jsonIntOmit "cpu_quota" r.cpuQuota, jsonIntOmit "cpu_period" r.cpuPeriod,
    jsonStrOmit "cpuset_cpus" r.cpusetCpus, jsonStrOmit "cpuset_mems" r.cpusetMems,
    jsonStrOmit "memory" r.memory, jsonStrOmit "memory_reservation" r.memoryReservation,
    jsonStrOmit "memory_swap" r.memorySwap, jsonOptIntOmit "pids_limit" r.pidsLimit,
    jsonOptBoolOmit "oom_kill_disable" r.oomKillDisable,
    jsonStrOmit "cgroup_parent" r.cgroupParent, jsonStrOmit "shm_size" r.shmSize]

/-- JSON of `config.HealthCheckSpec`. -/
def marshalHealthCheckSpec (h : HealthCheckSpec) : String :=
  jsonObjOpt [jsonStrArrOmit "test" h.test, jsonStrOmit "interval" h.interval,
    jsonStrOmit "timeout" h.timeout, jsonOptIntOmit "retries" h.retries,
    jsonStrOmit "start_period" h.startPeriod, jsonStrOmit "start_interval" h.startInterval,
    jsonBoolOmit "disable" h.disable]

/-- JSON of `config.LogConfigSpec`. -/
def marshalLogConfigSpec (l : LogConfigSpec) : String :=
  jsonObjOpt [jsonStrOmit "driver" l.driver, jsonStrMapOmit "options" l.options]

/-- JSON of a `nil`-distinguished `envKV` slice. -/
def jsonOptKVArr (k : String) (v : Option (List EnvKV)) : String :=
  match v with
  | none => jsonKV k "null"
  | some l => jsonKV k (jsonArr (l.map marshalEnvKV))

/-- JSON of `service.runFingerprintRun`, members in struct order. -/
def marshalRunFingerprintRun (r : RunFingerprintRun) : String :=
  jsonObjOpt [
    some (jsonKV "uid" (jsonInt r.uid)),
    some (jsonKV "gid" (jsonInt r.gid)),
    some (jsonKV "user" (jsonStr r.user)),
    some (jsonKV "tty" (jsonBool r.tty)),
    some (jsonKV "stdin_open" (jsonBool r.stdinOpen)),
    some (jsonKV "auto_remove" (jsonBool r.autoRemove)),
    some (jsonKV "hostname" (jsonStr r.hostname)),
    some (jsonKV "domain_name" (jsonStr r.domainName)),
    some (jsonKV "work_dir" (jsonStr r.workDir)),
    some (jsonOptKVArr "env" r.env),
    some (jsonStrArr "entrypoint" r.entrypoint),
    some (jsonStrArr "cmd" r.cmd),
    some (jsonKV "network_mode" (jsonStr r.networkMode)),
    some (match r.networks with
      | none => jsonKV "networks" "null"
      | some l => jsonKV "networks" (jsonArr (l.map marshalNetworkFingerprint))),
    some (jsonOptStrArr "ports" r.ports),
    some (jsonOptStrArr "expose" r.expose),
    some (jsonOptStrArr "extra_hosts" r.extraHosts),
    some (jsonOptStrArr "dns" r.dns),
    some (jsonOptStrArr "dns_search" r.dnsSearch),
    some (jsonOptStrArr "dns_opt" r.dnsOptions),
    some (jsonKV "ipc" (jsonStr r.ipc)),
    some (jsonKV "pid" (jsonStr r.pid)),
    some (jsonKV "uts" (jsonStr r.uts)),
    some (jsonKV "runtime" (jsonStr r.runtime)),
    some (jsonKV "volumes" (jsonArr (r.volumes.map marshalMountSpec))),
    (r.resources.map (fun res => jsonKV "resources" (marshalResourcesSpec res))),
    some (jsonKV "privileged" (jsonBool r.privileged)),
    some (jsonKV "read_only" (jsonBool r.readOnly)),
    some (jsonOptStrArr "cap_add" r.capAdd),
    some (jsonOptStrArr "cap_drop" r.capDrop),
    some (jsonOptStrArr "security_opt" r.securityOpt),
    some (jsonOptKVArr "sysctls" r.sysctls),
    some (jsonKV "ulimits" (jsonArr (r.ulimits.map marshalUlimitSpec))),
    some (jsonOptStrArr "tmpfs" r.tmpfs),
    some (jsonOptStrArr "devices" r.devices),
    some (jsonOptStrArr "group_add" r.groupAdd),
    some (jsonOptKVArr "labels" r.labels),
    some (jsonKV "stop_signal" (jsonStr r.stopSignal)),
    some (jsonKV "stop_grace_period" (jsonStr r.stopGracePeriod)),
    (r.healthcheck.map (fun h => jsonKV "healthcheck" (marshalHealthCheckSpec h))),
    (r.logging.map (fun l => jsonKV "logging" (marshalLogConfigSpec l))),
    some (jsonKV "restart" (jsonStr r.restart)),
    some (jsonKV "platform" (jsonStr r.platform))]

/-- JSON of `service.runFingerprintSpec`, members in struct order. -/
def marshalRunFingerprintSpec (s : RunFingerprintSpec) : String :=
  jsonObj [
    jsonKV "alias" (jsonStr s.aliasName),
    jsonKV "name" (jsonStr s.name),
    jsonKV "image_ref" (jsonStr s.imageRef),
    jsonKV "image_id" (jsonStr s.imageID),
    jsonKV "run" (marshalRunFingerprintRun s.run)]

/-- Embedding of `service.RunFingerprint`: the hex digest of the
canonical JSON serialization of the fingerprint projection.  The SHA-256
hash composed with hex encoding is a fixed pure function of the
serialized string and is abstracted as the parameter `h`; every claim
about digest equality is proved for all `h`, and hence in particular for
SHA-256/hex. -/
def RunFingerprint (h : String → String)
    (aliasName name imageRef imageID : String) (run : RunSpec)
    (tty stdinOpen autoRemove : Bool) : String :=
  h (marshalRunFingerprintSpec {
    aliasName := aliasName, name := name, imageRef := imageRef, imageID := imageID,
    run := buildRunFingerprintRun run tty stdinOpen autoRemove })

/-! ## The lifecycle resolver (`service.Run` / `service.tryReuseContainer`)

The engine is modelled explicitly: the inspect-by-name result is an input
(`none` standing for the engine's not-found answer), the engine calls the
resolver issues are recorded in order, and the identifier the engine
would mint for a create call is an input.  Engine calls themselves are
modelled as succeeding; the stop call's result is discarded by the source
(best-effort) and carries no result here either. -/

/-- The running flag of `container.State` as inspected. -/
structure ContainerState where
  running : Bool
deriving DecidableEq, Repr

/-- The engine's answer to inspect-by-name: identifier, config labels
(`none` for a `nil` config or labels map) and state (`none` for a `nil`
state). -/
structure InspectedContainer where
  id : String
  labels : Option (List (String × String))
  state : Option ContainerState
deriving DecidableEq, Repr

/-- An engine call issued by the resolver. -/
inductive EngineCall where
  | containerStop (id : String)
  | containerRemoveForce (id : String)
  | containerStart (id : String)
  | containerCreate (name : String)
deriving DecidableEq, Repr

/-- `service.RunResult`. -/
structure RunResult where
  id : String
  autoRemove : Bool
  attach : Bool
  tty : Bool
deriving DecidableEq, Repr

/-- The stored fingerprint label of an inspected container
(`labels[containerFingerprintLabel]`, defaulting maps and the lookup to
the empty string exactly as the source does). -/
def inspectedFingerprint (ctr : InspectedContainer) : String :=
  match ctr.labels with
  | none => ""
  | some l => mapGet l containerFingerprintLabel

/-- The running state of an inspected container (`nil` state counts as
not running, as in the source's `State == nil || !State.Running`). -/
def inspectedRunning (ctr : InspectedContainer) : Bool :=
  match ctr.state with
  | none => false
  | some st => st.running

/-- Embedding of `service.tryReuseContainer`: given the inspect result
and the fresh fingerprint, returns the reuse result (when any), the
reused flag, and the engine calls issued.  Mirrors the source: not-found
means no reuse and no calls; a stale fingerprint issues a best-effort
stop (only when running) and a force-remove, then declines to reuse; a
matching fingerprint reuses the container, starting it only when it is
not running. -/
def tryReuseContainer (inspect : Option InspectedContainer) (fingerprint : String)
    (autoRemove attach tty : Bool) : Option RunResult × Bool × List EngineCall :=
  match inspect with
  | none => (none, false, [])
  | some ctr =>
    if inspectedFingerprint ctr ≠ fingerprint then
      (none, false,
        (if inspectedRunning ctr then [EngineCall.containerStop ctr.id] else []) ++
          [EngineCall.containerRemoveForce ctr.id])
    else if ¬ inspectedRunning ctr then
      (some ⟨ctr.id, autoRemove, attach, tty⟩, true, [EngineCall.containerStart ctr.id])
    else
      (some ⟨ctr.id, autoRemove, attach, tty⟩, true, [])

/-- Embedding of the reuse/create decision of `service.Run` (everything
after the fingerprint computation): try to reuse; otherwise build the
create options (propagating their error) and issue create + start, the
engine minting `createdID`. -/
def RunModel (inspect : Option InspectedContainer) (createName fingerprint : String)
    (run : RunSpec) (imageRef : String) (tty stdinOpen autoRemove attach : Bool)
    (createdID : String) : Except String (RunResult × List EngineCall) :=
  match tryReuseContainer inspect fingerprint autoRemove attach tty with
  | (some result, true, calls) => .ok (result, calls)
  | (_, _, calls) =>
    match BuildContainerCreateOptions createName run imageRef fingerprint tty stdinOpen autoRemove with
    | (_, some e) => .error e
    | (_, none) =>
      .ok (⟨createdID, autoRemove, attach, tty⟩,
        calls ++ [EngineCall.containerCreate createName, EngineCall.containerStart createdID])

deriving instance DecidableEq for Except

/-! ## Helper lemmas -/

/-- Go map lookup on a cons cell. -/
theorem mapGet_cons (x : String × String) (t : List (String × String)) (k : String) :
    mapGet (x :: t) k = if x.1 == k then x.2 else mapGet t k := by
  simp only [mapGet, List.find?]
  cases hx : (x.1 == k) <;> simp [hx]

/-- Two association lists with the same entries (in any order) and
duplicate-free keys agree on every lookup. -/
theorem mapGet_congr_perm :
    ∀ {l₁ l₂ : List (String × String)}, l₁.Perm l₂ → (l₁.map Prod.fst).Nodup →
      ∀ k, mapGet l₁ k = mapGet l₂ k := by
  intro l₁ l₂ hp
  induction hp with
  | nil => intro _ _; rfl
  | cons x h ih =>
    intro nd k
    rw [List.map_cons, List.nodup_cons] at nd
    rw [mapGet_cons, mapGet_cons]
    by_cases hx : (x.1 == k) = true
    · simp [hx]
    · simp only [hx, if_false, Bool.false_eq_true]
      exact ih nd.2 k
  | swap x y l =>
    intro nd k
    rw [List.map_cons, List.map_cons, List.nodup_cons, List.nodup_cons] at nd
    have hyx : y.1 ≠ x.1 := by
      intro h
      exact nd.1 (by rw [h]; exact List.mem_cons_self _ _)
    rw [mapGet_cons, mapGet_cons, mapGet_cons, mapGet_cons]
    by_cases hx : (x.1 == k) = true <;> by_cases hy : (y.1 == k) = true
    · exact absurd (by rw [eq_of_beq hy, eq_of_beq hx]) hyx
    · simp [hx, hy]
    · simp [hx, hy]
    · simp [hx, hy]
  | trans h₁ h₂ ih₁ ih₂ =>
    intro nd k
    exact (ih₁ nd k).trans (ih₂ (((h₁.map Prod.fst).nodup_iff).mp nd) k)

/-- Sorting is a function of the multiset of elements. -/
theorem insertionSort_congr_perm {l₁ l₂ : List String} (h : l₁.Perm l₂) :
    l₁.insertionSort (fun a b => a ≤ b) = l₂.insertionSort (fun a b => a ≤ b) :=
  List.eq_of_perm_of_sorted
    ((List.perm_insertionSort _ l₁).trans (h.trans (List.perm_insertionSort _ l₂).symm))
    (List.sorted_insertionSort _ l₁) (List.sorted_insertionSort _ l₂)

/-- The sorted key/value projection is insensitive to map iteration
order: permuting the entries of a duplicate-free map leaves it
unchanged. -/
theorem mapToSortedKVs_congr {l₁ l₂ : List (String × String)} (hp : l₁.Perm l₂)
    (nd : (l₁.map Prod.fst).Nodup) : mapToSortedKVs l₁ = mapToSortedKVs l₂ := by
  by_cases h1 : l₁ = []
  · subst h1
    have h2 : l₂ = [] := hp.symm.eq_nil
    subst h2; rfl
  · have h2 : l₂ ≠ [] := fun h => h1 ((h ▸ hp).eq_nil)
    unfold mapToSortedKVs
    simp only [h1, h2, if_false]
    rw [insertionSort_congr_perm (hp.map Prod.fst)]
    refine congrArg some (List.map_congr_left ?_)
    intro k _
    rw [mapGet_congr_perm hp nd k]

/-- Two run specs with equal fingerprint projections have equal
fingerprints (for every digest function). -/
theorem runFingerprint_congr (h : String → String) (aliasName name imageRef imageID : String)
    {r₁ r₂ : RunSpec} {tty stdinOpen autoRemove : Bool}
    (hrun : buildRunFingerprintRun r₁ tty stdinOpen autoRemove
      = buildRunFingerprintRun r₂ tty stdinOpen autoRemove) :
    RunFingerprint h aliasName name imageRef imageID r₁ tty stdinOpen autoRemove
      = RunFingerprint h aliasName name imageRef imageID r₂ tty stdinOpen autoRemove := by
  unfold RunFingerprint
  rw [hrun]

/-! ## Claim theorems -/

/-- C2: Fingerprint determinism and map-order insensitivity: for every
RunSpec value and fixed (alias, name, imageRef, imageID, tty, stdinOpen,
autoRemove), two computations of RunFingerprint yield identical hex
digests; and two RunSpec values whose env maps (and sysctls/labels maps)
contain exactly the same key/value pairs but in different
iteration/insertion order yield the same digest.  (Stated for every
digest function `h`, hence in particular for SHA-256/hex.) -/
theorem runFingerprint_deterministic_and_order_insensitive
    (h : String → String) (aliasName name imageRef imageID : String)
    (tty stdinOpen autoRemove : Bool) (r : RunSpec)
    (env1 sysctls1 labels1 : List (String × String))
    (henv : env1.Perm r.env) (henvnd : (env1.map Prod.fst).Nodup)
    (hsys : sysctls1.Perm r.sysctls) (hsysnd : (sysctls1.map Prod.fst).Nodup)
    (hlab : labels1.Perm r.labels) (hlabnd : (labels1.map Prod.fst).Nodup) :
    RunFingerprint h aliasName name imageRef imageID r tty stdinOpen autoRemove
      = RunFingerprint h aliasName name imageRef imageID r tty stdinOpen autoRemove
    ∧ RunFingerprint h aliasName name imageRef imageID
        { r with env := env1, sysctls := sysctls1, labels := labels1 } tty stdinOpen autoRemove
      = RunFingerprint h aliasName name imageRef imageID r tty stdinOpen autoRemove := by
  refine ⟨rfl, ?_⟩
  apply runFingerprint_congr
  unfold buildRunFingerprintRun
  simp only []
  rw [mapToSortedKVs_congr henv henvnd, mapToSortedKVs_congr hsys hsysnd,
    mapToSortedKVs_congr hlab hlabnd]

/-- Witness for C2: a two-entry env map given in the two possible
iteration orders produces the same digest. -/
theorem runFingerprint_deterministic_and_order_insensitive_witness :
    (([("B", "2"), ("A", "1")] : List (String × String)).Perm [("A", "1"), ("B", "2")])
    ∧ (([("B", "2"), ("A", "1")].map (Prod.fst (α := String) (β := String))).Nodup)
    ∧ RunFingerprint (fun s => s) "demo" "cradle-demo" "img:tag" "sha256:abc"
        { env := [("B", "2"), ("A", "1")] } true true false
      = RunFingerprint (fun s => s) "demo" "cradle-demo" "img:tag" "sha256:abc"
        { env := [("A", "1"), ("B", "2")] } true true false := by
  refine ⟨List.Perm.swap _ _ _, by decide, ?_⟩
  exact (runFingerprint_deterministic_and_order_insensitive (fun s => s)
    "demo" "cradle-demo" "img:tag" "sha256:abc" true true false
    { env := [("A", "1"), ("B", "2")] } [("B", "2"), ("A", "1")] [] []
    (List.Perm.swap _ _ _) (by decide) (List.Perm.refl _) (by decide)
    (List.Perm.refl _) (by decide)).2

/-- The spec's description of the list canonicalization, from its words:
"every string list is trimmed-and-empty-filtered (but order-preserving
otherwise)".  Used to compare the source's normalization against the
spec's description. -/
def specTrimFilter (l : List String) : List String :=
  (l.map goTrimSpace).filter (fun s => s ≠ "")

/-- The source's trim-and-filter loop computes exactly the spec's
trimmed-and-filtered list. -/
theorem filterMap_trim_eq (l : List String) :
    l.filterMap (fun v =>
      let t := goTrimSpace v
      if t = "" then none else some t) = specTrimFilter l := by
  unfold specTrimFilter
  induction l with
  | nil => rfl
  | cons x t ih =>
    simp only [List.filterMap_cons, List.map_cons, List.filter_cons]
    by_cases hx : goTrimSpace x = "" <;> simp [hx, ih]

/-- On nonempty input, `NormalizeTrimmedSlice` is the spec's
trimmed-and-filtered list (on empty input it is the `nil` slice). -/
theorem normalizeTrimmedSlice_eq_specTrimFilter (l : List String) (hl : l ≠ []) :
    NormalizeTrimmedSlice l = some (specTrimFilter l) := by
  unfold NormalizeTrimmedSlice
  simp only [hl, if_false]
  rw [filterMap_trim_eq]

/-- Appending blank elements to a nonempty list does not change its
normalization. -/
theorem normalizeTrimmedSlice_append_blanks {l blanks : List String}
    (hl : l ≠ []) (hb : ∀ s ∈ blanks, goTrimSpace s = "") :
    NormalizeTrimmedSlice (l ++ blanks) = NormalizeTrimmedSlice l := by
  have h1 : l ++ blanks ≠ [] := by
    intro h
    exact hl (List.append_eq_nil.mp h).1
  unfold NormalizeTrimmedSlice
  simp only [h1, hl, if_false]
  congr 1
  rw [List.filterMap_append]
  have h2 : blanks.filterMap (fun v =>
      let t := goTrimSpace v
      if t = "" then none else some t) = [] := by
    rw [List.filterMap_eq_nil_iff]
    intro s hs
    simp [hb s hs]
  rw [h2, List.append_nil]

/-- Network lookup on a cons cell. -/
theorem networksGet_cons (x : String × NetworkSpec) (t : List (String × NetworkSpec)) (k : String) :
    networksGet (x :: t) k = if x.1 == k then x.2 else networksGet t k := by
  simp only [networksGet, List.find?]
  cases hx : (x.1 == k) <;> simp [hx]

/-- Appending blank aliases to a network's nonempty alias list does not
change the networks projection. -/
theorem normalizeNetworks_head_aliases (nm : String) (al blanks : List String)
    (nets : List (String × NetworkSpec)) (hal : al ≠ [])
    (hb : ∀ s ∈ blanks, goTrimSpace s = "") :
    normalizeNetworks ((nm, ⟨al ++ blanks⟩) :: nets)
      = normalizeNetworks ((nm, ⟨al⟩) :: nets) := by
  unfold normalizeNetworks
  simp only [List.map_cons, reduceCtorEq, if_false]
  refine congrArg some (List.map_congr_left ?_)
  intro k _
  rw [networksGet_cons, networksGet_cons]
  by_cases hk : (nm == k) = true
  · simp only [hk, if_true]
    simp only [NetworkFingerprint.mk.injEq, true_and]
    exact normalizeTrimmedSlice_append_blanks hal hb
  · simp [hk]

set_option maxRecDepth 20000 in
/-- C7 counterexample: the `entrypoint` list is carried into the
fingerprint projection verbatim, not trimmed-and-filtered, so the claim
fails at the concrete input `entrypoint = ["a", " "]` (and the digest of
an identity digest function does change when a blank element is
appended). -/
theorem runFingerprint_entrypoint_verbatim_cex :
    (buildRunFingerprintRun { entrypoint := ["a", " "] } true true false).entrypoint
      = ["a", " "]
    ∧ specTrimFilter ["a", " "] = ["a"]
    ∧ (buildRunFingerprintRun { entrypoint := ["a", " "] } true true false).entrypoint
      ≠ specTrimFilter ["a", " "]
    ∧ RunFingerprint (fun s => s) "a" "n" "ir" "ii" { entrypoint := ["a", " "] } true true false
      ≠ RunFingerprint (fun s => s) "a" "n" "ir" "ii" { entrypoint := ["a"] } true true false := by
  refine ⟨rfl, by decide, by decide, by decide⟩

/-- C7 (amended): every string-list field of the fingerprint projection
except `entrypoint` and `cmd` — ports, expose, extra hosts, dns,
dns_search, dns_opt, cap_add, cap_drop, security_opt, tmpfs, devices,
group_add, and network alias lists — is the trimmed-and-empty-filtered
input (order-preserving); `entrypoint` and `cmd` are carried verbatim.
Hence appending whitespace-only elements to a nonempty such list leaves
the digest unchanged (on an empty list the projection switches from the
`nil` encoding to the empty-slice encoding, and for `entrypoint`/`cmd`
blank elements are hashed verbatim). -/
theorem runFingerprint_list_normalization
    (h : String → String) (aliasName name imageRef imageID : String)
    (tty stdinOpen autoRemove : Bool) (r : RunSpec)
    (l blanks : List String) (hl : l ≠ []) (hb : ∀ s ∈ blanks, goTrimSpace s = "")
    (nm : String) (al : List String) (hal : al ≠ []) (nets : List (String × NetworkSpec)) :
    RunFingerprint h aliasName name imageRef imageID { r with ports := l ++ blanks } tty stdinOpen autoRemove
      = RunFingerprint h aliasName name imageRef imageID { r with ports := l } tty stdinOpen autoRemove
    ∧
    RunFingerprint h aliasName name imageRef imageID { r with expose := l ++ blanks } tty stdinOpen autoRemove
      = RunFingerprint h aliasName name imageRef imageID { r with expose := l } tty stdinOpen autoRemove
    ∧
    RunFingerprint h aliasName name imageRef imageID { r with extraHosts := l ++ blanks } tty stdinOpen autoRemove
      = RunFingerprint h aliasName name imageRef imageID { r with extraHosts := l } tty stdinOpen autoRemove
    ∧
    RunFingerprint h aliasName name imageRef imageID { r with dns := l ++ blanks } tty stdinOpen autoRemove
      = RunFingerprint h aliasName name imageRef imageID { r with dns := l } tty stdinOpen autoRemove
    ∧
    RunFingerprint h aliasName name imageRef imageID { r with dnsSearch := l ++ blanks } tty stdinOpen autoRemove
      = RunFingerprint h aliasName name imageRef imageID { r with dnsSearch := l } tty stdinOpen autoRemove
    ∧
    RunFingerprint h aliasName name imageRef imageID { r with dnsOptions := l ++ blanks } tty stdinOpen autoRemove
      = RunFingerprint h aliasName name imageRef imageID { r with dnsOptions := l } tty stdinOpen autoRemove
    ∧
    RunFingerprint h aliasName name imageRef imageID { r with capAdd := l ++ blanks } tty stdinOpen autoRemove
      = RunFingerprint h aliasName name imageRef imageID { r with capAdd := l } tty stdinOpen autoRemove
    ∧
    RunFingerprint h aliasName name imageRef imageID { r with capDrop := l ++ blanks } tty stdinOpen autoRemove
      = RunFingerprint h aliasName name imageRef imageID { r with capDrop := l } tty stdinOpen autoRemove
    ∧
    RunFingerprint h aliasName name imageRef imageID { r with securityOpt := l ++ blanks } tty stdinOpen autoRemove
      = RunFingerprint h aliasName name imageRef imageID { r with securityOpt := l } tty stdinOpen autoRemove
    ∧
    RunFingerprint h aliasName name imageRef imageID { r with tmpfs := l ++ blanks } tty stdinOpen autoRemove
      = RunFingerprint h aliasName name imageRef imageID { r with tmpfs := l } tty stdinOpen autoRemove
    ∧
    RunFingerprint h aliasName name imageRef imageID { r with devices := l ++ blanks } tty stdinOpen autoRemove
      = RunFingerprint h aliasName name imageRef imageID { r with devices := l } tty stdinOpen autoRemove
    ∧
    RunFingerprint h aliasName name imageRef imageID { r with groupAdd := l ++ blanks } tty stdinOpen autoRemove
      = RunFingerprint h aliasName name imageRef imageID { r with groupAdd := l } tty stdinOpen autoRemove
    ∧
    RunFingerprint h aliasName name imageRef imageID
        { r with networks := (nm, ⟨al ++ blanks⟩) :: nets } tty stdinOpen autoRemove
      = RunFingerprint h aliasName name imageRef imageID
        { r with networks := (nm, ⟨al⟩) :: nets } tty stdinOpen autoRemove
    ∧
    (buildRunFingerprintRun r tty stdinOpen autoRemove).entrypoint = r.entrypoint
    ∧
    (buildRunFingerprintRun r tty stdinOpen autoRemove).cmd = r.cmd
    ∧
    NormalizeTrimmedSlice l = some (specTrimFilter l) := by
  refine ⟨?_, ?_, ?_, ?_, ?_, ?_, ?_, ?_, ?_, ?_, ?_, ?_, ?_, ?_, ?_, ?_⟩
  · apply runFingerprint_congr
    unfold buildRunFingerprintRun
    simp only []
    rw [normalizeTrimmedSlice_append_blanks hl hb]
  · apply runFingerprint_congr
    unfold buildRunFingerprintRun
    simp only []
    rw [normalizeTrimmedSlice_append_blanks hl hb]
  · apply runFingerprint_congr
    unfold buildRunFingerprintRun
    simp only []
    rw [normalizeTrimmedSlice_append_blanks hl hb]
  · apply runFingerprint_congr
    unfold buildRunFingerprintRun
    simp only []
    rw [normalizeTrimmedSlice_append_blanks hl hb]
  · apply runFingerprint_congr
    unfold buildRunFingerprintRun
    simp only []
    rw [normalizeTrimmedSlice_append_blanks hl hb]
  · apply runFingerprint_congr
    unfold buildRunFingerprintRun
    simp only []
    rw [normalizeTrimmedSlice_append_blanks hl hb]
  · apply runFingerprint_congr
    unfold buildRunFingerprintRun
    simp only []
    rw [normalizeTrimmedSlice_append_blanks hl hb]
  · apply runFingerprint_congr
    unfold buildRunFingerprintRun
    simp only []
    rw [normalizeTrimmedSlice_append_blanks hl hb]
  · apply runFingerprint_congr
    unfold buildRunFingerprintRun
    simp only []
    rw [normalizeTrimmedSlice_append_blanks hl hb]
  · apply runFingerprint_congr
    unfold buildRunFingerprintRun
    simp only []
    rw [normalizeTrimmedSlice_append_blanks hl hb]
  · apply runFingerprint_congr
    unfold buildRunFingerprintRun
    simp only []
    rw [normalizeTrimmedSlice_append_blanks hl hb]
  · apply runFingerprint_congr
    unfold buildRunFingerprintRun
    simp only []
    rw [normalizeTrimmedSlice_append_blanks hl hb]
  · apply runFingerprint_congr
    unfold buildRunFingerprintRun
    simp only []
    rw [normalizeNetworks_head_aliases nm al blanks nets hal hb]
  · rfl
  · rfl
  · exact normalizeTrimmedSlice_eq_specTrimFilter l hl

/-- Witness for C7: appending a whitespace-only entry to the port list
`["80"]` leaves the digest unchanged. -/
theorem runFingerprint_list_normalization_witness :
    ((["80"] : List String) ≠ [])
    ∧ (∀ s ∈ ([" "] : List String), goTrimSpace s = "")
    ∧ RunFingerprint (fun s => s) "a" "n" "ir" "ii" { ports := ["80", " "] } true false false
      = RunFingerprint (fun s => s) "a" "n" "ir" "ii" { ports := ["80"] } true false false := by
  refine ⟨by decide, by decide, ?_⟩
  exact (runFingerprint_list_normalization (fun s => s) "a" "n" "ir" "ii" true false false {}
    ["80"] [" "] (by decide) (by decide) "net" ["x"] (by decide) []).1

set_option maxRecDepth 20000 in
/-- C4: Port parsing round-trip: `"80"` exposes 80/tcp with no binding;
`"8080:80"` exposes 80/tcp with one binding (host port "8080", no host
IP); `"127.0.0.1:2222:22"` exposes 22/tcp with one binding (host IP
127.0.0.1, host port "2222"); the pair `"127.0.0.1:2222:22"`,
`"[::1]:2223:22"` accumulates two bindings on container port 22/tcp in
input order. -/
theorem parsePorts_round_trip :
    ParsePorts ["80"] = .ok ([⟨80, "tcp"⟩], [])
    ∧ ParsePorts ["8080:80"]
      = .ok ([⟨80, "tcp"⟩], [(⟨80, "tcp"⟩, [⟨none, "8080"⟩])])
    ∧ ParsePorts ["127.0.0.1:2222:22"]
      = .ok ([⟨22, "tcp"⟩], [(⟨22, "tcp"⟩, [⟨some "127.0.0.1", "2222"⟩])])
    ∧ ParsePorts ["127.0.0.1:2222:22", "[::1]:2223:22"]
      = .ok ([⟨22, "tcp"⟩],
             [(⟨22, "tcp"⟩, [⟨some "127.0.0.1", "2222"⟩, ⟨some "::1", "2223"⟩])]) :=
  ⟨by decide, by decide, by decide, by decide⟩

/-- C5 counterexample: a tmpfs mount with a non-empty source is accepted
by `validateMount`, not rejected, refuting the claim at the concrete
entry `{type := tmpfs, source := "srcx", target := "/t"}`. -/
theorem validateMount_tmpfs_source_accepted_cex :
    validateMount "a" 0 ⟨"tmpfs", "srcx", "/t", false⟩ "/b"
      = .ok ⟨"tmpfs", "srcx", "/t", false⟩ := by
  decide

/-- C5 (amended): validation accepts a mount entry only if its target is
non-empty and its type is one of bind, volume, tmpfs; bind and volume
mounts with an empty source are rejected with a field-qualified error;
tmpfs mounts are accepted regardless of their source (the source is not
checked, and is later dropped by the mount assembly). -/
theorem validateMount_characterization (name : String) (idx : Nat) (v : MountSpec)
    (baseDir : String) :
    (∀ w, validateMount name idx v baseDir = .ok w →
      (v.type = "bind" ∨ v.type = "volume" ∨ v.type = "tmpfs") ∧ v.target ≠ "" ∧
        ((v.type = "bind" ∨ v.type = "volume") → v.source ≠ ""))
    ∧ ((v.type = "bind" ∨ v.type = "volume") → v.target ≠ "" → v.source = "" →
        validateMount name idx v baseDir = .error
          ("aliases." ++ name ++ ".run.volumes[" ++ toString idx ++ "].source: required for " ++ v.type))
    ∧ (v.type = "tmpfs" → v.target ≠ "" → validateMount name idx v baseDir = .ok v) := by
  refine ⟨?_, ?_, ?_⟩
  · intro w h
    unfold validateMount at h
    split_ifs at h with h1 h2 h3 h4
    · refine ⟨?_, fun htg => h1 (Or.inr htg), ?_⟩
      · by_contra hc
        push_neg at hc
        exact h2 ⟨hc.1, hc.2.1, hc.2.2⟩
      · intro hty hsrc
        rcases hty with ht | ht <;> exact h3 ⟨by simp [ht], hsrc⟩
    · refine ⟨?_, fun htg => h1 (Or.inr htg), ?_⟩
      · by_contra hc
        push_neg at hc
        exact h2 ⟨hc.1, hc.2.1, hc.2.2⟩
      · intro hty hsrc
        rcases hty with ht | ht <;> exact h3 ⟨by simp [ht], hsrc⟩
  · intro hty htg hsrc
    unfold validateMount
    have h1 : ¬ (v.type = "" ∨ v.target = "") := by
      rintro (h | h)
      · rcases hty with ht | ht <;> simp [ht] at h
      · exact htg h
    have h2 : ¬ (v.type ≠ "bind" ∧ v.type ≠ "volume" ∧ v.type ≠ "tmpfs") := by
      rintro ⟨hb, hv, _⟩
      rcases hty with ht | ht
      · exact hb ht
      · exact hv ht
    have h3 : v.type ≠ "tmpfs" ∧ v.source = "" := by
      refine ⟨?_, hsrc⟩
      rcases hty with ht | ht <;> simp [ht]
    rw [if_neg h1, if_neg h2, if_pos h3]
  · intro hty htg
    unfold validateMount
    have h1 : ¬ (v.type = "" ∨ v.target = "") := by
      rintro (h | h)
      · rw [hty] at h
        exact absurd h (by decide)
      · exact htg h
    have h2 : ¬ (v.type ≠ "bind" ∧ v.type ≠ "volume" ∧ v.type ≠ "tmpfs") := by
      rintro ⟨_, _, h⟩
      exact h hty
    have h3 : ¬ (v.type ≠ "tmpfs" ∧ v.source = "") := by
      rintro ⟨h, _⟩
      exact h hty
    have h4 : ¬ (v.type = "bind" ∧ v.source ≠ "" ∧ ¬ filepathIsAbs v.source) := by
      rintro ⟨h, _⟩
      rw [hty] at h
      exact absurd h (by decide)
    rw [if_neg h1, if_neg h2, if_neg h3, if_neg h4]

/-- Witness for C5: a bind mount with empty source is rejected with the
field-qualified error, and an accepted bind mount has all required
fields. -/
theorem validateMount_characterization_witness :
    ((("bind" : String) = "bind" ∨ ("bind" : String) = "volume")
      ∧ ("/t" : String) ≠ "" ∧ ("" : String) = ""
      ∧ validateMount "web" 1 ⟨"bind", "", "/t", false⟩ "/base"
        = .error "aliases.web.run.volumes[1].source: required for bind")
    ∧ (validateMount "web" 0 ⟨"bind", "/s", "/t", false⟩ "/base" = .ok ⟨"bind", "/s", "/t", false⟩
      ∧ (("bind" : String) = "bind" ∨ ("bind" : String) = "volume" ∨ ("bind" : String) = "tmpfs")) := by
  refine ⟨⟨Or.inl rfl, by decide, rfl, ?_⟩, ⟨by decide, ?_⟩⟩
  · exact (validateMount_characterization "web" 1 ⟨"bind", "", "/t", false⟩ "/base").2.1
      (Or.inl rfl) (by decide) rfl
  · exact ((validateMount_characterization "web" 0 ⟨"bind", "/s", "/t", false⟩ "/base").1
      ⟨"bind", "/s", "/t", false⟩ (by decide)).1

/-- C6 counterexample: a device spec with more than three
colon-separated segments is not rejected: `"a:b:c:d"` parses to a device
mapping whose permissions field absorbs the extra segments. -/
theorem parseDeviceSpecs_four_segments_ok_cex :
    parseDeviceSpecs ["a:b:c:d"] = .ok [⟨"a", "b", "c:d"⟩] := by
  decide

/-- The device mappings produced by `parseDeviceSpecsLoop` always have
non-empty host and container paths. -/
theorem parseDeviceSpecsLoop_paths_nonempty :
    ∀ (specs : List String) (devs : List DeviceMapping),
      parseDeviceSpecsLoop specs = .ok devs →
      ∀ d ∈ devs, d.pathOnHost ≠ "" ∧ d.pathInContainer ≠ "" := by
  intro specs
  induction specs with
  | nil =>
    intro devs h d hd
    simp only [parseDeviceSpecsLoop] at h
    cases h
    cases hd
  | cons raw rest ih =>
    intro devs h d hd
    simp only [parseDeviceSpecsLoop] at h
    split at h
    · exact ih devs h d hd
    · split at h
      · cases h
      · rename_i m hm
        split at h
        · cases h
        · rename_i hpaths
          push_neg at hpaths
          cases htail : parseDeviceSpecsLoop rest with
          | error e => rw [htail] at h; cases h
          | ok tail =>
            rw [htail] at h
            simp only [bind, Except.bind] at h
            cases h
            rcases List.mem_cons.mp hd with hdm | hdt
            · subst hdm
              exact ⟨hpaths.1, hpaths.2⟩
            · exact ih tail htail d hdt

/-- C6 (amended): the device-spec split keeps at most three segments, so
a spec with more than three colon-separated segments (such as
`"a:b:c:d"`) is accepted with the extra segments folded into the
permissions field rather than rejected; a spec whose required host or
container path segment is empty (such as `"a:"`) errors naming the
offending entry, and no accepted mapping ever has an empty host or
container path. -/
theorem parseDeviceSpecs_characterization :
    parseDeviceSpecs ["a:b:c:d"] = .ok [⟨"a", "b", "c:d"⟩]
    ∧ parseDeviceSpecs ["a:"] = .error "invalid device entry \"a:\""
    ∧ (∀ (specs : List String) (devs : List DeviceMapping),
        parseDeviceSpecs specs = .ok devs →
        ∀ d ∈ devs, d.pathOnHost ≠ "" ∧ d.pathInContainer ≠ "") := by
  refine ⟨by decide, by decide, ?_⟩
  intro specs devs h d hd
  exact parseDeviceSpecsLoop_paths_nonempty specs devs h d hd

/-- Witness for C6: the universal part applied to the parse of
`"/dev/null:/dev/null:rwm"`. -/
theorem parseDeviceSpecs_characterization_witness :
    parseDeviceSpecs ["/dev/null:/dev/null:rwm"] = .ok [⟨"/dev/null", "/dev/null", "rwm"⟩]
    ∧ ((⟨"/dev/null", "/dev/null", "rwm"⟩ : DeviceMapping).pathOnHost ≠ ""
      ∧ (⟨"/dev/null", "/dev/null", "rwm"⟩ : DeviceMapping).pathInContainer ≠ "") := by
  refine ⟨by decide, ?_⟩
  exact parseDeviceSpecs_characterization.2.2 ["/dev/null:/dev/null:rwm"]
    [⟨"/dev/null", "/dev/null", "rwm"⟩] (by decide) _ (List.mem_singleton.mpr rfl)

/-- C8: User-spec precedence: the compiled process user spec equals the
`user` string verbatim whenever it is non-empty (even if uid/gid are also
set); otherwise it equals `uid:gid` exactly when both uid and gid are
positive; otherwise it is empty. -/
theorem userSpec_precedence (run : RunSpec) :
    (run.user ≠ "" → userSpec run = run.user)
    ∧ (run.user = "" → 0 < run.uid → 0 < run.gid →
        userSpec run = toString run.uid ++ ":" ++ toString run.gid)
    ∧ (run.user = "" → (run.uid ≤ 0 ∨ run.gid ≤ 0) → userSpec run = "") := by
  unfold userSpec
  refine ⟨fun h => by rw [if_pos h], fun h hu hg => ?_, fun h hng => ?_⟩
  · rw [if_neg (by simp [h]), if_pos ⟨hu, hg⟩]
  · rw [if_neg (by simp [h]), if_neg ?_]
    rintro ⟨hu, hg⟩
    rcases hng with hx | hx <;> omega

/-- Witness for C8: with both `user` and positive uid/gid set the `user`
string wins; with only uid/gid set the numeric composition is used; with
only a uid the spec is empty. -/
theorem userSpec_precedence_witness :
    (("alice" : String) ≠ ""
      ∧ userSpec { user := "alice", uid := 1000, gid := 1000 } = "alice")
    ∧ (userSpec { uid := 1000, gid := 2000 } = "1000:2000")
    ∧ (userSpec { uid := 1000 } = "") := by
  refine ⟨⟨by decide, ?_⟩, ?_, ?_⟩
  · exact (userSpec_precedence { user := "alice", uid := 1000, gid := 1000 }).1 (by decide)
  · exact (userSpec_precedence { uid := 1000, gid := 2000 }).2.1 rfl (by decide) (by decide)
  · exact (userSpec_precedence { uid := 1000 }).2.2 rfl (Or.inr (by decide))

/-- Blank port specs leave the port-parsing loop's accumulators
untouched. -/
theorem parsePortsLoop_blanks (exposed : PortSet) (bindings : PortMap) :
    ∀ specs : List String, (∀ s ∈ specs, goTrimSpace s = "") →
      parsePortsLoop exposed bindings specs = .ok (exposed, bindings) := by
  intro specs
  induction specs with
  | nil => intro _; rfl
  | cons raw rest ih =>
    intro hb
    simp only [parsePortsLoop, hb raw (List.mem_cons_self raw rest), if_pos]
    exact ih (fun s hs => hb s (List.mem_cons_of_mem raw hs))

/-- Blank DNS entries produce no addresses and no error. -/
theorem parseDNSLoop_blanks :
    ∀ specs : List String, (∀ s ∈ specs, goTrimSpace s = "") →
      parseDNSLoop specs = .ok [] := by
  intro specs
  induction specs with
  | nil => intro _; rfl
  | cons raw rest ih =>
    intro hb
    simp only [parseDNSLoop, hb raw (List.mem_cons_self raw rest), if_pos]
    exact ih (fun s hs => hb s (List.mem_cons_of_mem raw hs))

/-- Blank tmpfs entries leave the tmpfs map untouched. -/
theorem parseTmpfsLoop_blanks (entries : List (String × String)) :
    ∀ specs : List String, (∀ s ∈ specs, goTrimSpace s = "") →
      parseTmpfsLoop entries specs = .ok entries := by
  intro specs
  induction specs with
  | nil => intro _; rfl
  | cons raw rest ih =>
    intro hb
    simp only [parseTmpfsLoop, hb raw (List.mem_cons_self raw rest), if_pos]
    exact ih (fun s hs => hb s (List.mem_cons_of_mem raw hs))

/-- Blank device entries produce no mappings and no error. -/
theorem parseDeviceSpecsLoop_blanks :
    ∀ specs : List String, (∀ s ∈ specs, goTrimSpace s = "") →
      parseDeviceSpecsLoop specs = .ok [] := by
  intro specs
  induction specs with
  | nil => intro _; rfl
  | cons raw rest ih =>
    intro hb
    simp only [parseDeviceSpecsLoop, hb raw (List.mem_cons_self raw rest), if_pos]
    exact ih (fun s hs => hb s (List.mem_cons_of_mem raw hs))

/-- Blank extra-expose entries leave the exposed set untouched. -/
theorem addExposedPortsLoop_blanks (exposed : PortSet) :
    ∀ specs : List String, (∀ s ∈ specs, goTrimSpace s = "") →
      addExposedPortsLoop exposed specs = .ok exposed := by
  intro specs
  induction specs with
  | nil => intro _; rfl
  | cons raw rest ih =>
    intro hb
    simp only [addExposedPortsLoop, hb raw (List.mem_cons_self raw rest), if_pos]
    exact ih (fun s hs => hb s (List.mem_cons_of_mem raw hs))

/-- C10: in every list-valued parser (ParsePorts, parseDNS, parseTmpfs,
parseDeviceSpecs, and the extra-expose merge) entries that are empty or
whitespace-only are silently skipped: they produce no output entry and
never an error, so a list of only blank strings parses successfully to
an empty result. -/
theorem parsers_skip_blank_entries (specs : List String)
    (hb : ∀ s ∈ specs, goTrimSpace s = "") :
    ParsePorts specs = .ok ([], [])
    ∧ parseDNS specs = .ok []
    ∧ parseTmpfs specs = .ok []
    ∧ parseDeviceSpecs specs = .ok []
    ∧ ∀ exposed : PortSet, addExposedPorts exposed specs = .ok exposed := by
  refine ⟨?_, ?_, ?_, ?_, ?_⟩
  · unfold ParsePorts
    by_cases hs : specs = []
    · rw [if_pos hs]
    · rw [if_neg hs]
      exact parsePortsLoop_blanks [] [] specs hb
  · exact parseDNSLoop_blanks specs hb
  · unfold parseTmpfs
    by_cases hs : specs = []
    · rw [if_pos hs]
    · rw [if_neg hs]
      exact parseTmpfsLoop_blanks [] specs hb
  · exact parseDeviceSpecsLoop_blanks specs hb
  · intro exposed
    unfold addExposedPorts
    by_cases hs : specs = []
    · rw [if_pos hs]
    · rw [if_neg hs]
      exact addExposedPortsLoop_blanks exposed specs hb

/-- Witness for C10: the list `["", "  ", "\t"]` of blank entries parses
to empty results in every parser. -/
theorem parsers_skip_blank_entries_witness :
    (∀ s ∈ (["", "  ", "\t"] : List String), goTrimSpace s = "")
    ∧ ParsePorts ["", "  ", "\t"] = .ok ([], [])
    ∧ parseDNS ["", "  ", "\t"] = .ok []
    ∧ parseTmpfs ["", "  ", "\t"] = .ok []
    ∧ parseDeviceSpecs ["", "  ", "\t"] = .ok []
    ∧ addExposedPorts [⟨80, "tcp"⟩] ["", "  ", "\t"] = .ok [⟨80, "tcp"⟩] := by
  have h := parsers_skip_blank_entries ["", "  ", "\t"] (by decide)
  exact ⟨by decide, h.1, h.2.1, h.2.2.1, h.2.2.2.1, h.2.2.2.2 [⟨80, "tcp"⟩]⟩

/-- Lookup at the written key after the in-place replacement pass of
`mapSet`. -/
theorem mapGet_mapReplace_self (m : List (String × String)) (k v : String) :
    mapGet (m.map (fun p => if (p.1 == k) = true then (k, v) else p)) k
      = if mapHasKey m k then v else "" := by
  induction m with
  | nil => rfl
  | cons x t ih =>
    simp only [List.map_cons, mapHasKey, List.any_cons]
    by_cases hx : (x.1 == k) = true
    · rw [if_pos hx, mapGet_cons]
      simp [hx]
    · have hx2 : (x.1 == k) = false := by simpa using hx
      rw [if_neg hx, mapGet_cons]
      simp only [hx2, if_false, Bool.false_eq_true, Bool.false_or]
      exact ih

/-- Lookup at another key is unaffected by the replacement pass of
`mapSet`. -/
theorem mapGet_mapReplace_ne (m : List (String × String)) (k v kq : String) (h : kq ≠ k) :
    mapGet (m.map (fun p => if (p.1 == k) = true then (k, v) else p)) kq = mapGet m kq := by
  induction m with
  | nil => rfl
  | cons x t ih =>
    simp only [List.map_cons]
    by_cases hx : (x.1 == k) = true
    · rw [if_pos hx, mapGet_cons, mapGet_cons]
      have h1 : (k == kq) = false := beq_eq_false_iff_ne.mpr (Ne.symm h)
      have h2 : (x.1 == kq) = false := by
        rw [eq_of_beq hx]
        exact h1
      simp only [h1, h2, if_false, Bool.false_eq_true]
      exact ih
    · rw [if_neg hx, mapGet_cons, mapGet_cons]
      by_cases hxq : (x.1 == kq) = true
      · simp [hxq]
      · simp only [hxq, if_false, Bool.false_eq_true]
        exact ih

/-- Lookup skips a prefix that does not contain the key. -/
theorem mapGet_append_notkey (m : List (String × String)) (k : String)
    (hm : mapHasKey m k = false) (rest : List (String × String)) :
    mapGet (m ++ rest) k = mapGet rest k := by
  induction m with
  | nil => rfl
  | cons x t ih =>
    simp only [mapHasKey, List.any_cons, Bool.or_eq_false_iff] at hm
    simp only [List.cons_append, mapGet_cons, hm.1, if_false, Bool.false_eq_true]
    exact ih (by simp [mapHasKey, hm.2])

/-- `m[k] = v` makes `m[k]` read back `v`. -/
theorem mapGet_mapSet_self (m : List (String × String)) (k v : String) :
    mapGet (mapSet m k v) k = v := by
  unfold mapSet
  by_cases h : mapHasKey m k = true
  · rw [if_pos h, mapGet_mapReplace_self, if_pos h]
  · rw [if_neg h, mapGet_append_notkey m k (by simpa using h)]
    simp [mapGet_cons]

/-- `m[k] = v` leaves other keys unchanged. -/
theorem mapGet_mapSet_ne (m : List (String × String)) (k v kq : String) (h : kq ≠ k) :
    mapGet (mapSet m k v) kq = mapGet m kq := by
  unfold mapSet
  by_cases hm : mapHasKey m k = true
  · rw [if_pos hm]
    exact mapGet_mapReplace_ne m k v kq h
  · rw [if_neg hm]
    induction m with
    | nil =>
      simp only [List.nil_append, mapGet_cons]
      have h1 : (k == kq) = false := beq_eq_false_iff_ne.mpr (Ne.symm h)
      simp [h1, mapGet]
    | cons x t ih =>
      simp only [List.cons_append, mapGet_cons]
      by_cases hxq : (x.1 == kq) = true
      · simp [hxq]
      · simp only [hxq, if_false, Bool.false_eq_true]
        refine ih ?_
        intro hh
        refine hm ?_
        simp only [mapHasKey, List.any_cons, Bool.or_eq_true]
        exact Or.inr (by simpa [mapHasKey] using hh)

/-- Copying entries whose keys all differ from `k` does not disturb the
value at `k`. -/
theorem mapGet_foldl_mapSet_notkey (labels : List (String × String)) :
    ∀ (m : List (String × String)) (k : String), (∀ p ∈ labels, p.1 ≠ k) →
      mapGet (labels.foldl (fun acc p => mapSet acc p.1 p.2) m) k = mapGet m k := by
  induction labels with
  | nil => intro m k _; rfl
  | cons x t ih =>
    intro m k hk
    simp only [List.foldl_cons]
    rw [ih _ k (fun p hp => hk p (List.mem_cons_of_mem x hp))]
    exact mapGet_mapSet_ne m x.1 x.2 k (Ne.symm (hk x (List.mem_cons_self x t)))

/-- Every caller label entry survives the merge (it is copied over the
seeded map last, so it wins any collision). -/
theorem mergeLabels_mem (labels : List (String × String)) (fp : String)
    (nd : (labels.map Prod.fst).Nodup) :
    ∀ k v, (k, v) ∈ labels → mapGet (mergeLabels labels fp) k = v := by
  intro k v hmem
  obtain ⟨l1, l2, rfl⟩ := List.append_of_mem hmem
  unfold mergeLabels
  rw [List.foldl_append]
  simp only [List.foldl_cons]
  have hnotin : ∀ p ∈ l2, p.1 ≠ k := by
    intro p hp hpk
    rw [List.map_append, List.map_cons] at nd
    have h2 := (List.nodup_append.mp nd).2.1
    have h3 : k ∉ l2.map Prod.fst := (List.nodup_cons.mp h2).1
    have h4 : p.1 ∈ l2.map Prod.fst := List.mem_map_of_mem Prod.fst hp
    rw [hpk] at h4
    exact h3 h4
  rw [mapGet_foldl_mapSet_notkey l2 _ k hnotin]
  exact mapGet_mapSet_self _ k v

/-- C3 counterexample: when the caller's labels already contain the
reserved key `io.cradle.fingerprint`, the caller's value — not the
fingerprint — wins the collision (`maps.Copy` copies the caller's map
over the seeded fingerprint entry). -/
theorem mergeLabels_fingerprint_entry_loses_cex :
    mapGet (mergeLabels [(containerFingerprintLabel, "caller-value")] "fresh-fingerprint")
        containerFingerprintLabel = "caller-value"
    ∧ mapGet (mergeLabels [(containerFingerprintLabel, "caller-value")] "fresh-fingerprint")
        containerFingerprintLabel ≠ "fresh-fingerprint" :=
  ⟨by decide, by decide⟩

/-- C3 (amended): the compiled container labels are the caller labels
plus the fingerprint stored under the reserved key
`io.cradle.fingerprint`; on a key collision the caller's entry wins (the
fingerprint seeds the map and the caller's labels are copied over it),
and the fingerprint value is present exactly when the caller does not
use the reserved key.  The builder stores `mergeLabels` of the run's
labels and the fingerprint in the container config. -/
theorem mergeLabels_caller_wins (labels : List (String × String)) (fp : String)
    (nd : (labels.map Prod.fst).Nodup) :
    (∀ k v, (k, v) ∈ labels → mapGet (mergeLabels labels fp) k = v)
    ∧ ((∀ p ∈ labels, p.1 ≠ containerFingerprintLabel) →
        mapGet (mergeLabels labels fp) containerFingerprintLabel = fp)
    ∧ (∀ (name : String) (run : RunSpec) (imageRef fingerprint : String)
        (tty stdinOpen autoRemove : Bool) (opts : ContainerCreateOptions),
        BuildContainerCreateOptions name run imageRef fingerprint tty stdinOpen autoRemove
          = (opts, none) →
        ∃ cfg, opts.config = some cfg ∧ cfg.labels = mergeLabels run.labels fingerprint) := by
  refine ⟨mergeLabels_mem labels fp nd, ?_, ?_⟩
  · intro hk
    unfold mergeLabels
    rw [mapGet_foldl_mapSet_notkey labels _ containerFingerprintLabel hk]
    simp [mapGet_cons]
  · intro name run imageRef fingerprint tty stdinOpen autoRemove opts h
    simp only [BuildContainerCreateOptions] at h
    repeat' split at h
    all_goals simp only [Prod.mk.injEq, reduceCtorEq, and_false] at h
    all_goals obtain ⟨rfl, -⟩ := h
    all_goals exact ⟨_, rfl, rfl⟩

/-- Witness for C3: with the caller label `app=demo`, the merge keeps
the caller entry and stores the fingerprint under the reserved key. -/
theorem mergeLabels_caller_wins_witness :
    (([("app", "demo")].map (Prod.fst (α := String) (β := String))).Nodup)
    ∧ mapGet (mergeLabels [("app", "demo")] "fp") "app" = "demo"
    ∧ mapGet (mergeLabels [("app", "demo")] "fp") containerFingerprintLabel = "fp" := by
  refine ⟨by decide, ?_, ?_⟩
  · exact (mergeLabels_caller_wins [("app", "demo")] "fp" (by decide)).1 "app" "demo"
      (by decide)
  · exact (mergeLabels_caller_wins [("app", "demo")] "fp" (by decide)).2.1 (by decide)

set_option maxRecDepth 20000 in
/-- C9: Fail-fast assembly atomicity: whenever
`BuildContainerCreateOptions` fails it returns the zero options value
alongside the error — never a partial parameter set; a negative
health-check interval errors naming `run.healthcheck.interval`, an
unparsable memory string errors naming `run.resources.memory`; and on
success the returned value carries the name and populated config and
host config. -/
theorem buildContainerCreateOptions_fail_fast :
    (∀ (name : String) (run : RunSpec) (imageRef fingerprint : String)
        (tty stdinOpen autoRemove : Bool),
      (BuildContainerCreateOptions name run imageRef fingerprint tty stdinOpen autoRemove).2.isSome
          = true →
        (BuildContainerCreateOptions name run imageRef fingerprint tty stdinOpen autoRemove).1 = {})
    ∧ BuildContainerCreateOptions "n" { healthCheck := some { interval := "-5s" } } "img" "fp"
        true true false = ({}, some "invalid run.healthcheck.interval: must be >= 0")
    ∧ BuildContainerCreateOptions "n" { resources := some { memory := "xyz" } } "img" "fp"
        true true false = ({}, some "invalid run.resources.memory: unparsable size")
    ∧ (∀ (name : String) (run : RunSpec) (imageRef fingerprint : String)
        (tty stdinOpen autoRemove : Bool) (opts : ContainerCreateOptions),
      BuildContainerCreateOptions name run imageRef fingerprint tty stdinOpen autoRemove
          = (opts, none) →
        opts.name = name ∧ opts.config.isSome = true ∧ opts.hostConfig.isSome = true) := by
  refine ⟨?_, by decide, by decide, ?_⟩
  · intro name run imageRef fingerprint tty stdinOpen autoRemove
    simp only [BuildContainerCreateOptions]
    repeat' split
    all_goals simp
  · intro name run imageRef fingerprint tty stdinOpen autoRemove opts h
    simp only [BuildContainerCreateOptions] at h
    repeat' split at h
    all_goals simp only [Prod.mk.injEq, reduceCtorEq, and_false] at h
    all_goals obtain ⟨rfl, -⟩ := h
    all_goals exact ⟨rfl, rfl, rfl⟩

set_option maxRecDepth 20000 in
/-- Witness for C9: the failing health-check input returns the zero
options value, and the empty run spec builds successfully with populated
config and host config. -/
theorem buildContainerCreateOptions_fail_fast_witness :
    ((BuildContainerCreateOptions "n" { healthCheck := some { interval := "-5s" } } "img" "fp"
        true true false).2.isSome = true)
    ∧ ((BuildContainerCreateOptions "n" { healthCheck := some { interval := "-5s" } } "img" "fp"
        true true false).1 = {})
    ∧ ((BuildContainerCreateOptions "n" {} "img" "fp" true true false).1.config.isSome = true) := by
  refine ⟨by decide, ?_, ?_⟩
  · exact buildContainerCreateOptions_fail_fast.1 "n" { healthCheck := some { interval := "-5s" } }
      "img" "fp" true true false (by decide)
  · exact (buildContainerCreateOptions_fail_fast.2.2.2 "n" {} "img" "fp" true true false
      (BuildContainerCreateOptions "n" {} "img" "fp" true true false).1 (by decide)).2.1

/-- C1: Lifecycle reuse decision: when the engine reports an existing
container under the target name whose stored fingerprint label equals
the fresh fingerprint, no create call is issued and the existing
identifier is returned unchanged, with a start issued exactly when it is
not running; when the stored label differs, a stop is issued exactly
when the container is running, then a force-remove, and the create path
runs, returning the newly created identifier (different from the
existing one whenever the engine mints a different id). -/
theorem runModel_lifecycle (ctr : InspectedContainer) (fp createName : String) (run : RunSpec)
    (imageRef : String) (tty stdinOpen autoRemove attach : Bool) (createdID : String) :
    (inspectedFingerprint ctr = fp →
      RunModel (some ctr) createName fp run imageRef tty stdinOpen autoRemove attach createdID
        = .ok (⟨ctr.id, autoRemove, attach, tty⟩,
            if inspectedRunning ctr then [] else [EngineCall.containerStart ctr.id])
      ∧ (∀ n, EngineCall.containerCreate n
          ∉ (if inspectedRunning ctr then ([] : List EngineCall)
             else [EngineCall.containerStart ctr.id]))
      ∧ (EngineCall.containerStart ctr.id
          ∈ (if inspectedRunning ctr then ([] : List EngineCall)
             else [EngineCall.containerStart ctr.id])
        ↔ inspectedRunning ctr = false))
    ∧ (inspectedFingerprint ctr ≠ fp →
       (BuildContainerCreateOptions createName run imageRef fp tty stdinOpen autoRemove).2 = none →
      RunModel (some ctr) createName fp run imageRef tty stdinOpen autoRemove attach createdID
        = .ok (⟨createdID, autoRemove, attach, tty⟩,
            (if inspectedRunning ctr then [EngineCall.containerStop ctr.id] else [])
              ++ [EngineCall.containerRemoveForce ctr.id, EngineCall.containerCreate createName,
                  EngineCall.containerStart createdID])
      ∧ (EngineCall.containerStop ctr.id
          ∈ (if inspectedRunning ctr then [EngineCall.containerStop ctr.id] else [])
              ++ [EngineCall.containerRemoveForce ctr.id, EngineCall.containerCreate createName,
                  EngineCall.containerStart createdID]
        ↔ inspectedRunning ctr = true)
      ∧ EngineCall.containerRemoveForce ctr.id
          ∈ (if inspectedRunning ctr then [EngineCall.containerStop ctr.id] else [])
              ++ [EngineCall.containerRemoveForce ctr.id, EngineCall.containerCreate createName,
                  EngineCall.containerStart createdID]
      ∧ EngineCall.containerCreate createName
          ∈ (if inspectedRunning ctr then [EngineCall.containerStop ctr.id] else [])
              ++ [EngineCall.containerRemoveForce ctr.id, EngineCall.containerCreate createName,
                  EngineCall.containerStart createdID]
      ∧ (createdID ≠ ctr.id →
          (⟨createdID, autoRemove, attach, tty⟩ : RunResult).id ≠ ctr.id)) := by
  constructor
  · intro h
    refine ⟨?_, ?_, ?_⟩
    · by_cases hr : inspectedRunning ctr <;>
        simp [RunModel, tryReuseContainer, h, hr]
    · by_cases hr : inspectedRunning ctr <;> simp [hr]
    · by_cases hr : inspectedRunning ctr <;> simp [hr]
  · intro hne hbuild
    refine ⟨?_, ?_, ?_, ?_, fun h => h⟩
    · rcases hB : BuildContainerCreateOptions createName run imageRef fp tty stdinOpen autoRemove
        with ⟨opts, err⟩
      rw [hB] at hbuild
      simp only at hbuild
      subst hbuild
      simp [RunModel, tryReuseContainer, hne, hB]
    · by_cases hr : inspectedRunning ctr <;> simp [hr]
    · by_cases hr : inspectedRunning ctr <;> simp [hr]
    · by_cases hr : inspectedRunning ctr <;> simp [hr]

set_option maxRecDepth 20000 in
/-- Witness for C1: a running container whose stored label matches "fp"
is reused as-is (no calls at all); a running container with a stale
label is stopped, force-removed, and recreated, returning the engine's
new identifier. -/
theorem runModel_lifecycle_witness :
    RunModel (some ⟨"old-id", some [(containerFingerprintLabel, "fp")], some ⟨true⟩⟩)
        "cradle-demo" "fp" {} "img" true false false false "new-id"
      = .ok (⟨"old-id", false, false, true⟩, [])
    ∧ RunModel (some ⟨"old-id", some [(containerFingerprintLabel, "stale")], some ⟨true⟩⟩)
        "cradle-demo" "fp" {} "img" true false false false "new-id"
      = .ok (⟨"new-id", false, false, true⟩,
          [EngineCall.containerStop "old-id", EngineCall.containerRemoveForce "old-id",
           EngineCall.containerCreate "cradle-demo", EngineCall.containerStart "new-id"]) := by
  constructor
  · exact ((runModel_lifecycle ⟨"old-id", some [(containerFingerprintLabel, "fp")], some ⟨true⟩⟩
      "fp" "cradle-demo" {} "img" true false false false "new-id").1 (by decide)).1
  · exact ((runModel_lifecycle ⟨"old-id", some [(containerFingerprintLabel, "stale")], some ⟨true⟩⟩
      "fp" "cradle-demo" {} "img" true false false false "new-id").2 (by decide) (by decide)).1
